import Mathlib

/-!
# WALAInstance: the bridge between the translator and the Java side

A shallow embedding of `ca.maple.swan.translator/lib/WALAInstance.cpp`.

The C++ code talks to a Java virtual machine through JNI.  The Java heap is a
list of objects, a `jobject` is the identity of a Java object (`0` is `NULL`),
and every JNI call either succeeds or leaves a Java exception pending, as
fixed by a schedule of outcomes carried by the environment.  Whatever makes a
call fail in the virtual machine (a class that is not found, memory, the
limits of a Java collection) is an entry of that schedule; `JNIEnv.quiet`
says that no call fails.

The functions of the file are the definitions that carry their C++ names;
loops are recursive functions over the sequence walked, and a function with a
`TRY ... CATCH()` block is the block (a `TryBlock`) and the function around
it.  What the Java side can see of a result is read back from the heap by the
`read...` functions.
-/

namespace Swan

/-! ## The Java side -/

/-- JNI object reference.  `0` is `NULL`; reference `r + 1` denotes cell `r` of
the heap.  A reference stands for the object it denotes: two references are
equal exactly when they denote the same object, and `std::map<jobject, ...>`
orders them as numbers. -/
abbrev jobject := Nat

/-- JNI `jint`. -/
abbrev jint := Int

/-- A `std::string`, given by the text it holds: the bytes of the string are
the UTF-8 encoding of these characters, so a NUL character is the byte 0. -/
abbrev std_string := List Char

/-- The UTF-8 encoding of a character: one byte below U+0080, two bytes below
U+0800, three bytes below U+10000, four bytes from U+10000 on. -/
def utf8Char (c : Char) : List Nat :=
  if c.toNat < 0x80 then [c.toNat]
  else if c.toNat < 0x800 then [0xC0 + c.toNat / 64, 0x80 + c.toNat % 64]
  else if c.toNat < 0x10000 then
    [0xE0 + c.toNat / 4096, 0x80 + c.toNat / 64 % 64, 0x80 + c.toNat % 64]
  else
    [0xF0 + c.toNat / 262144, 0x80 + c.toNat / 4096 % 64, 0x80 + c.toNat / 64 % 64,
      0x80 + c.toNat % 64]

/-- The bytes of a `std::string`. -/
def utf8 : std_string → List Nat
  | [] => []
  | c :: rest => utf8Char c ++ utf8 rest

/-- `std::string::c_str()` read by a consumer of NUL-terminated strings
(`NewStringUTF`): the bytes before the first byte 0. -/
def c_str (s : std_string) : List Nat :=
  (utf8 s).takeWhile (fun b => b != 0)

/-- A continuation byte `10xxxxxx`. -/
def continuation (b : Nat) : Bool :=
  0x80 ≤ b && b < 0xC0

/-- What a decoder of modified UTF-8 holds of a character it has not read to
its end: nothing, the first byte of a two-byte form, the first byte of a
three-byte form, or the first two bytes of a three-byte form. -/
inductive Utf8Pending
  | nothing
  | two (b0 : Nat)
  | three (b0 : Nat)
  | three2 (b0 b1 : Nat)
  deriving DecidableEq, Repr

/-- A byte read with nothing held: `110xxxxx` opens a two-byte form,
`1110xxxx` a three-byte form, and every other byte is a character of its own
(modified UTF-8 has no four-byte form: the bytes `1111xxxx` and stray
continuation bytes are taken one by one). -/
def Utf8Pending.first (b : Nat) : List Nat × Utf8Pending :=
  if 0xC0 ≤ b ∧ b < 0xE0 then ([], .two b)
  else if 0xE0 ≤ b ∧ b < 0xF0 then ([], .three b)
  else ([b], .nothing)

/-- A byte read: the UTF-16 code units it completes and what is held after
it.  A form that the byte does not continue is given up: the bytes held are
taken one by one and the byte is read with nothing held. -/
def Utf8Pending.next : Utf8Pending → Nat → List Nat × Utf8Pending
  | .nothing, b => Utf8Pending.first b
  | .two b0, b =>
    if continuation b then ([(b0 - 0xC0) * 64 + (b - 0x80)], .nothing)
    else (b0 :: (Utf8Pending.first b).1, (Utf8Pending.first b).2)
  | .three b0, b =>
    if continuation b then ([], .three2 b0 b)
    else (b0 :: (Utf8Pending.first b).1, (Utf8Pending.first b).2)
  | .three2 b0 b1, b =>
    if continuation b then ([(b0 - 0xE0) * 4096 + (b1 - 0x80) * 64 + (b - 0x80)], .nothing)
    else (b0 :: b1 :: (Utf8Pending.first b).1, (Utf8Pending.first b).2)

/-- The end of the bytes: the bytes held are taken one by one. -/
def Utf8Pending.flush : Utf8Pending → List Nat
  | .nothing => []
  | .two b0 => [b0]
  | .three b0 => [b0]
  | .three2 b0 b1 => [b0, b1]

/-- The UTF-16 code units a decoder of modified UTF-8 makes of bytes. -/
def Utf8Pending.decode : Utf8Pending → List Nat → List Nat
  | p, [] => p.flush
  | p, b :: rest => (p.next b).1 ++ Utf8Pending.decode (p.next b).2 rest

/-- The `java.lang.String` (its UTF-16 code units) that JNI makes of bytes it
reads as modified UTF-8, the format of `NewStringUTF`: one-, two- and
three-byte forms as in UTF-8; there is no four-byte form. -/
def modifiedUtf8 (bytes : List Nat) : List Nat :=
  Utf8Pending.decode .nothing bytes

/-- The UTF-16 code units of a character: itself below U+10000, a surrogate
pair from U+10000 on. -/
def utf16Char (c : Char) : List Nat :=
  if c.toNat < 0x10000 then [c.toNat]
  else [0xD800 + (c.toNat - 0x10000) / 1024, 0xDC00 + (c.toNat - 0x10000) % 1024]

/-- The `java.lang.String` (its UTF-16 code units) that holds the text of a
`std::string`. -/
def utf16 : std_string → List Nat
  | [] => []
  | c :: rest => utf16Char c ++ utf16 rest

/-- The `java.lang.String` that `NewStringUTF(s.c_str())` makes of a
`std::string`. -/
abbrev jstring (s : std_string) : List Nat :=
  modifiedUtf8 (c_str s)

/-- The Java classes the file looks up with `FindClass`:
`java/util/ArrayList`, `java/util/LinkedHashMap`,
`com/ibm/wala/cast/tree/impl/CAstSourcePositionRecorder` and
`ca/maple/swan/swift/tree/CAstEntityInfo`. -/
inductive JavaClass
  | java_util_ArrayList
  | java_util_LinkedHashMap
  | CAstSourcePositionRecorder
  | CAstEntityInfo
  deriving DecidableEq, Repr

/-- The (name, signature) pairs the file looks up with `GetMethodID`:
`<init> (I)V`, `<init> ()V`, `add (Ljava/lang/Object;)Z`,
`put (Ljava/lang/Object;Ljava/lang/Object;)Ljava/lang/Object;`,
`setPosition (CAstNode, Position)V` and the twelve-argument constructor
`<init> (String, ArrayList, ArrayList, ArrayList, String, ArrayList, ArrayList,
LinkedHashMap, CAstSourcePositionRecorder, ArrayList, Position, ArrayList)V`. -/
inductive JavaMethod
  | init_I
  | init
  | add
  | put
  | setPosition
  | init_CAstEntityInfo
  deriving DecidableEq, Repr

/-- JNI `jclass`; `none` is `NULL`. -/
abbrev jclass := Option JavaClass

/-- JNI `jmethodID`; `none` is `NULL`. -/
abbrev jmethodID := Option (JavaClass × JavaMethod)

/-- An argument of a variadic JNI call: an object reference or an int. -/
inductive jvalue
  | l (o : jobject)
  | i (n : jint)
  deriving DecidableEq, Repr

/-- Java objects.  A `JString` is a `java.lang.String`, given by its UTF-16
code units; `CAstEntityInfo` keeps its twelve constructor arguments in the
order of the constructor signature; `Opaque` stands for objects made
elsewhere (AST nodes). -/
inductive JavaObject
  | JString (units : List Nat)
  | ArrayList (elems : List jobject)
  | LinkedHashMap (entries : List (jobject × jobject))
  | CAstSourcePositionRecorder (positions : List (jobject × jobject))
  | Position (fl fc ll lc : jint)
  | CAstEntityInfo (functionName basicBlocks callNodes cfNodes returnType argumentTypes
      argumentNames variableTypes sourcePositionRecorder declNodes functionPosition
      argumentPositions : jobject)
  | Opaque (tag : Nat)
  deriving DecidableEq, Repr

/-- The JNI environment: the Java heap, whether a Java exception is pending,
and the outcomes of the JNI calls to come (`true`: the call throws); once the
schedule is used up every call succeeds. -/
structure JNIEnv where
  heap : List JavaObject
  pending : Bool
  faults : List Bool
  deriving DecidableEq, Repr

/-- The object a reference denotes. -/
def JNIEnv.deref (env : JNIEnv) (r : jobject) : Option JavaObject :=
  if r = 0 then none else env.heap[r - 1]?

/-- Allocation of a new object: its reference is new. -/
def JNIEnv.alloc (env : JNIEnv) (o : JavaObject) : jobject × JNIEnv :=
  (env.heap.length + 1, { env with heap := env.heap ++ [o] })

/-- Replacement of the state of the object `r` denotes. -/
def JNIEnv.store (env : JNIEnv) (r : jobject) (o : JavaObject) : JNIEnv :=
  if r = 0 then env else { env with heap := env.heap.set (r - 1) o }

/-- A Java exception becomes pending. -/
def JNIEnv.raise (env : JNIEnv) : JNIEnv :=
  { env with pending := true }

/-- Start of a JNI call: takes the next outcome off the schedule and tells
whether the call may run.  A call made while an exception is pending does not
run. -/
def JNIEnv.enter (env : JNIEnv) : Bool × JNIEnv :=
  match env.faults with
  | [] => (!env.pending, env)
  | f :: rest => (!(env.pending || f), { env with faults := rest })

/-- Code that makes JNI calls and lets Java exceptions stay pending. -/
structure JNI (α : Type) where
  run : JNIEnv → α × JNIEnv

instance : Monad JNI where
  pure a := ⟨fun env => (a, env)⟩
  bind m f := ⟨fun env => (f (m.run env).1).run (m.run env).2⟩

/-- The body of a `TRY(Exception, JavaEnv) ... CATCH()` block: `none` is the
C++ exception thrown by `THROW_ANY_EXCEPTION`, which leaves the block. -/
structure TryBlock (α : Type) where
  run : JNIEnv → Option α × JNIEnv

instance : Monad TryBlock where
  pure a := ⟨fun env => (some a, env)⟩
  bind m f := ⟨fun env =>
    match (m.run env).1 with
    | some a => (f a).run (m.run env).2
    | none => (none, (m.run env).2)⟩

instance : MonadLift JNI TryBlock where
  monadLift m := ⟨fun env => (some (m.run env).1, (m.run env).2)⟩

/-- Modelled from the spec: the macros `TRY`, `THROW_ANY_EXCEPTION` and `CATCH`
come from a header that is not under src.  `THROW_ANY_EXCEPTION` leaves the
`TRY` block when a Java exception is pending and keeps it pending ("must be
propagated, not swallowed"); `CATCH()` has an empty handler. -/
def THROW_ANY_EXCEPTION : TryBlock Unit :=
  ⟨fun env => if env.pending then (none, env) else (some (), env)⟩

/-- The methods each class has. -/
def hasMethod : JavaClass → JavaMethod → Bool
  | .java_util_ArrayList, .init_I => true
  | .java_util_ArrayList, .init => true
  | .java_util_ArrayList, .add => true
  | .java_util_LinkedHashMap, .init_I => true
  | .java_util_LinkedHashMap, .init => true
  | .java_util_LinkedHashMap, .put => true
  | .CAstSourcePositionRecorder, .init => true
  | .CAstSourcePositionRecorder, .setPosition => true
  | .CAstEntityInfo, .init_CAstEntityInfo => true
  | _, _ => false

/-- JNI `FindClass`. -/
def FindClass (name : JavaClass) : JNI jclass :=
  ⟨fun env =>
    if env.enter.1 then (some name, env.enter.2)
    else (none, env.enter.2.raise)⟩

/-- JNI `GetMethodID`. -/
def GetMethodID (cls : jclass) (m : JavaMethod) : JNI jmethodID :=
  ⟨fun env =>
    if env.enter.1 then
      match cls with
      | some c =>
        if hasMethod c m then (some (c, m), env.enter.2) else (none, env.enter.2.raise)
      | none => (none, env.enter.2.raise)
    else (none, env.enter.2.raise)⟩

/-- JNI `NewStringUTF` on the bytes of a NUL-terminated string: a new
`java.lang.String`, decoded from the bytes as modified UTF-8. -/
def NewStringUTF (bytes : List Nat) : JNI jobject :=
  ⟨fun env =>
    if env.enter.1 then env.enter.2.alloc (.JString (modifiedUtf8 bytes))
    else (0, env.enter.2.raise)⟩

/-- What a constructor builds from its arguments.  The capacity given to the
`ArrayList` constructor (the `size()` of the sequence to copy) does not show
in the list it builds; a negative capacity makes the constructor throw. -/
def construct : JavaClass → JavaMethod → List jvalue → Option JavaObject
  | .java_util_ArrayList, .init_I, [.i n] => if n < 0 then none else some (.ArrayList [])
  | .java_util_ArrayList, .init, [] => some (.ArrayList [])
  | .java_util_LinkedHashMap, .init_I, [.i n] => if n < 0 then none else some (.LinkedHashMap [])
  | .java_util_LinkedHashMap, .init, [] => some (.LinkedHashMap [])
  | .CAstSourcePositionRecorder, .init, [] => some (.CAstSourcePositionRecorder [])
  | .CAstEntityInfo, .init_CAstEntityInfo,
      [.l a1, .l a2, .l a3, .l a4, .l a5, .l a6, .l a7, .l a8, .l a9, .l a10, .l a11, .l a12] =>
    some (.CAstEntityInfo a1 a2 a3 a4 a5 a6 a7 a8 a9 a10 a11 a12)
  | _, _, _ => none

/-- The object `NewObject` is to build: the constructor must be one of the
class. -/
def constructed (cls : jclass) (ctor : jmethodID) (args : List jvalue) : Option JavaObject :=
  match cls, ctor with
  | some c, some (c1, m) => if c = c1 then construct c m args else none
  | _, _ => none

/-- JNI `NewObject`. -/
def NewObject (cls : jclass) (ctor : jmethodID) (args : List jvalue) : JNI jobject :=
  ⟨fun env =>
    if env.enter.1 then
      match constructed cls ctor args with
      | some o => env.enter.2.alloc o
      | none => (0, env.enter.2.raise)
    else (0, env.enter.2.raise)⟩

/-- Java `put` of maps that keep the order of first insertion
(`LinkedHashMap.put`): a key already there keeps its place and takes the new
value, a new key goes to the end. -/
def assocPut {β : Type} (es : List (jobject × β)) (k : jobject) (v : β) : List (jobject × β) :=
  match es with
  | [] => [(k, v)]
  | (k1, v1) :: rest => if k1 = k then (k, v) :: rest else (k1, v1) :: assocPut rest k v

/-- Java `get` of a map. -/
def assocGet {β : Type} (es : List (jobject × β)) (k : jobject) : Option β :=
  match es with
  | [] => none
  | (k1, v1) :: rest => if k1 = k then some v1 else assocGet rest k

/-- The state of the receiver after a method ran: `ArrayList.add`,
`LinkedHashMap.put`, `CAstSourcePositionRecorder.setPosition`. -/
def invoke : JavaClass × JavaMethod → JavaObject → List jvalue → Option JavaObject
  | (.java_util_ArrayList, .add), .ArrayList xs, [.l x] => some (.ArrayList (xs ++ [x]))
  | (.java_util_LinkedHashMap, .put), .LinkedHashMap es, [.l k, .l v] =>
    some (.LinkedHashMap (assocPut es k v))
  | (.CAstSourcePositionRecorder, .setPosition), .CAstSourcePositionRecorder ps, [.l n, .l p] =>
    some (.CAstSourcePositionRecorder (assocPut ps n p))
  | _, _, _ => none

/-- The state the receiver of a call is to take: the method must be given and
the receiver must be an object on which it can run. -/
def invoked (env : JNIEnv) (obj : jobject) (mid : jmethodID) (args : List jvalue) :
    Option JavaObject :=
  match mid, env.deref obj with
  | some cm, some o => invoke cm o args
  | _, _ => none

/-- JNI `Call<Type>Method`: runs the method on the receiver; a `NULL` or
unsuitable receiver or method makes the call throw. -/
def CallMethod (obj : jobject) (mid : jmethodID) (args : List jvalue) : JNI Bool :=
  ⟨fun env =>
    if env.enter.1 then
      match invoked env obj mid args with
      | some o1 => (true, env.enter.2.store obj o1)
      | none => (false, env.enter.2.raise)
    else (false, env.enter.2.raise)⟩

/-- JNI `CallBooleanMethod`. -/
def CallBooleanMethod (obj : jobject) (mid : jmethodID) (args : List jvalue) : JNI Bool :=
  CallMethod obj mid args

/-- JNI `CallVoidMethod`. -/
def CallVoidMethod (obj : jobject) (mid : jmethodID) (args : List jvalue) : JNI Unit :=
  ⟨fun env => ((), ((CallMethod obj mid args).run env).2)⟩

/-- `CAstWrapper::makeLocation(fl, fc, ll, lc)`, a call into the WALA library:
asks the Java side for a position with first line, first column, last line
and last column as given. -/
def makeLocation (fl fc ll lc : jint) : JNI jobject :=
  ⟨fun env =>
    if env.enter.1 then env.enter.2.alloc (.Position fl fc ll lc)
    else (0, env.enter.2.raise)⟩

/-! ## The C++ side -/

/-- A `std::map<jobject, std::string>`, given by its entries in iteration
order (`begin()` to `end()`). -/
abbrev std_map := List (jobject × std_string)

/-- The invariant of `std::map`: iteration visits the keys in strictly
ascending order. -/
def std_map.ordered (m : std_map) : Prop :=
  List.Pairwise (fun a b => a < b) (m.map Prod.fst)

instance (m : std_map) : Decidable (std_map.ordered m) := by
  unfold std_map.ordered; infer_instance

/-- The statement `m[k] = v` on a `std::map`: a key already there takes the
new value, a new key is put at its place in key order. -/
def std_map.assign : std_map → jobject → std_string → std_map
  | [], k, v => [(k, v)]
  | (k1, v1) :: rest, k, v =>
    if k < k1 then (k, v) :: (k1, v1) :: rest
    else if k = k1 then (k, v) :: rest
    else (k1, v1) :: std_map.assign rest k v

/-- The map a sequence of statements `m[k] = v` builds from the empty map. -/
def std_map.build (writes : List (jobject × std_string)) : std_map :=
  writes.foldl (fun m kv => std_map.assign m kv.1 kv.2) []

/-- `std::map::find`. -/
def std_map.find : std_map → jobject → Option std_string
  | [], _ => none
  | (k1, v1) :: rest, k => if k1 = k then some v1 else std_map.find rest k

/-- Modelled from the spec: the struct `CAstEntityInfo` is declared in a header
that is not under src.  Its fields are those `getCAstEntityInfo` reads, with
the types of the functions they are passed to (`std::string`,
`std::vector<jobject>`, `std::vector<std::string>`,
`std::map<jobject, std::string>`, `jobject`). -/
structure CAstEntityInfo where
  functionName : std_string
  basicBlocks : List jobject
  callNodes : List jobject
  cfNodes : List jobject
  returnType : std_string
  argumentTypes : List std_string
  argumentNames : List std_string
  variableTypes : std_map
  CAstSourcePositionRecorder : jobject
  declNodes : List jobject
  functionPosition : jobject
  argumentPositions : List jobject
  deriving DecidableEq, Repr

/-- Modelled from the spec: the enumeration `sourceType` is declared in a header
that is not under src; its values are the three cases of the `switch` of
`addSourceInfo`. -/
inductive sourceType
  | INVALID
  | FULL
  | STARTONLY
  deriving DecidableEq, Repr

/-- Modelled from the spec: the struct `InstrInfo` is declared in a header that
is not under src.  Its fields are those `addSourceInfo` reads; the line and
column numbers are the `int` values it copies them to. -/
structure InstrInfo where
  srcType : sourceType
  startLine : jint
  startCol : jint
  endLine : jint
  endCol : jint
  deriving DecidableEq, Repr

/-- Modelled from the spec: the class `WALAInstance` is declared in a header
that is not under src.  Its members are those the functions below use:
`JavaEnv`, `castEntities`, `CAstNodes` and
`CurrentCAstSourcePositionRecorder`. -/
structure WALAInstance where
  JavaEnv : JNIEnv
  castEntities : List CAstEntityInfo
  CAstNodes : List jobject
  CurrentCAstSourcePositionRecorder : jobject
  deriving DecidableEq, Repr

/-- The loop `for (jobject element : v) CallBooleanMethod(list, add, element)`. -/
def addEach (list : jobject) (add : jmethodID) : List jobject → JNI Unit
  | [] => pure ()
  | element :: rest => do
    let _ ← CallBooleanMethod list add [.l element]
    addEach list add rest

/-- The body of `WALAInstance::getCAstNodes`. -/
def getCAstNodes.body (CAstNodes : List jobject) : JNI jobject := do
  let java_util_ArrayList ← FindClass .java_util_ArrayList
  let java_util_ArrayList_ ← GetMethodID java_util_ArrayList .init_I
  let java_util_ArrayList_add ← GetMethodID java_util_ArrayList .add
  let result ← NewObject java_util_ArrayList java_util_ArrayList_ [.i CAstNodes.length]
  addEach result java_util_ArrayList_add CAstNodes
  pure result

/-- `WALAInstance::getCAstNodes`. -/
def WALAInstance.getCAstNodes (self : WALAInstance) : jobject × WALAInstance :=
  let r := (getCAstNodes.body self.CAstNodes).run self.JavaEnv
  (r.1, { self with JavaEnv := r.2 })

/-- `WALAInstance::addCAstEntityInfo`. -/
def WALAInstance.addCAstEntityInfo (self : WALAInstance) (entity : CAstEntityInfo) :
    WALAInstance :=
  { self with castEntities := self.castEntities ++ [entity] }

/-- `WALAInstance::vectorToArrayList`. -/
def vectorToArrayList (v : List jobject) : JNI jobject := do
  let ArrayList ← FindClass .java_util_ArrayList
  let ArrayListConstructor ← GetMethodID ArrayList .init_I
  let ArrayListAdd ← GetMethodID ArrayList .add
  let ArrayListObject ← NewObject ArrayList ArrayListConstructor [.i v.length]
  addEach ArrayListObject ArrayListAdd v
  pure ArrayListObject

/-- The loop of `getArgumentTypesOfEntityInfo`. -/
def addEachString (list : jobject) (add : jmethodID) : List std_string → JNI Unit
  | [] => pure ()
  | type :: rest => do
    let s ← NewStringUTF (c_str type)
    let _ ← CallBooleanMethod list add [.l s]
    addEachString list add rest

/-- `WALAInstance::getArgumentTypesOfEntityInfo`. -/
def getArgumentTypesOfEntityInfo (argumentTypes : List std_string) : JNI jobject := do
  let ArrayList ← FindClass .java_util_ArrayList
  let ArrayListConstructor ← GetMethodID ArrayList .init_I
  let ArrayListAdd ← GetMethodID ArrayList .add
  let ArrayListArguments ← NewObject ArrayList ArrayListConstructor [.i argumentTypes.length]
  addEachString ArrayListArguments ArrayListAdd argumentTypes
  pure ArrayListArguments

/-- The loop of `mapToLinkedHashMap`, from `map.begin()` to `map.end()`. -/
def putEach (linkedHashMap : jobject) (put : jmethodID) : std_map → JNI Unit
  | [] => pure ()
  | it :: rest => do
    let s ← NewStringUTF (c_str it.2)
    CallVoidMethod linkedHashMap put [.l it.1, .l s]
    putEach linkedHashMap put rest

/-- `WALAInstance::mapToLinkedHashMap`. -/
def mapToLinkedHashMap (map : std_map) : JNI jobject := do
  let LinkedHashMapClass ← FindClass .java_util_LinkedHashMap
  let LinkedHashMapConstructor ← GetMethodID LinkedHashMapClass .init
  let LinkedHashMapPut ← GetMethodID LinkedHashMapClass .put
  let linkedHashMap ← NewObject LinkedHashMapClass LinkedHashMapConstructor []
  putEach linkedHashMap LinkedHashMapPut map
  pure linkedHashMap

/-- One round of the loop `for (auto &info : castEntities)` of
`getCAstEntityInfo`. -/
def getCAstEntityInfo.round (ArrayListCAstEntityInfo : jobject) (ArrayListAdd : jmethodID)
    (info : CAstEntityInfo) : TryBlock Unit := do
  let CAstEntityInfoClass ← FindClass .CAstEntityInfo
  THROW_ANY_EXCEPTION
  let CAstEntityInfoConstructor ← GetMethodID CAstEntityInfoClass .init_CAstEntityInfo
  THROW_ANY_EXCEPTION
  let FunctionName ← NewStringUTF (c_str info.functionName)
  THROW_ANY_EXCEPTION
  let BasicBlocks ← vectorToArrayList info.basicBlocks
  THROW_ANY_EXCEPTION
  let CallNodes ← vectorToArrayList info.callNodes
  THROW_ANY_EXCEPTION
  let CFNodes ← vectorToArrayList info.cfNodes
  THROW_ANY_EXCEPTION
  let ReturnType ← NewStringUTF (c_str info.returnType)
  THROW_ANY_EXCEPTION
  let ArgumentTypes ← getArgumentTypesOfEntityInfo info.argumentTypes
  THROW_ANY_EXCEPTION
  let ArgumentNames ← getArgumentTypesOfEntityInfo info.argumentNames
  THROW_ANY_EXCEPTION
  let VariableTypes ← mapToLinkedHashMap info.variableTypes
  THROW_ANY_EXCEPTION
  let DeclNodes ← vectorToArrayList info.declNodes
  THROW_ANY_EXCEPTION
  let ArgumentPositions ← vectorToArrayList info.argumentPositions
  THROW_ANY_EXCEPTION
  let CAstEntityInfoObject ← NewObject CAstEntityInfoClass CAstEntityInfoConstructor
    [.l FunctionName, .l BasicBlocks, .l CallNodes, .l CFNodes, .l ReturnType,
     .l ArgumentTypes, .l ArgumentNames, .l VariableTypes,
     .l info.CAstSourcePositionRecorder, .l DeclNodes, .l info.functionPosition,
     .l ArgumentPositions]
  let _ ← CallBooleanMethod ArrayListCAstEntityInfo ArrayListAdd [.l CAstEntityInfoObject]
  pure ()

/-- The loop `for (auto &info : castEntities)` of `getCAstEntityInfo`. -/
def getCAstEntityInfo.loop (ArrayListCAstEntityInfo : jobject) (ArrayListAdd : jmethodID) :
    List CAstEntityInfo → TryBlock Unit
  | [] => pure ()
  | info :: rest => do
    getCAstEntityInfo.round ArrayListCAstEntityInfo ArrayListAdd info
    getCAstEntityInfo.loop ArrayListCAstEntityInfo ArrayListAdd rest

/-- The `TRY` block of `WALAInstance::getCAstEntityInfo`. -/
def getCAstEntityInfo.body (castEntities : List CAstEntityInfo) : TryBlock jobject := do
  let ArrayList ← FindClass .java_util_ArrayList
  THROW_ANY_EXCEPTION
  let ArrayListConstructor ← GetMethodID ArrayList .init_I
  THROW_ANY_EXCEPTION
  let ArrayListAdd ← GetMethodID ArrayList .add
  let ArrayListCAstEntityInfo ← NewObject ArrayList ArrayListConstructor [.i castEntities.length]
  getCAstEntityInfo.loop ArrayListCAstEntityInfo ArrayListAdd castEntities
  pure ArrayListCAstEntityInfo

/-- `WALAInstance::getCAstEntityInfo`.  The result is `none` when the `TRY`
block was left by a C++ exception: `CATCH()` swallows it and control reaches
the end of the function without a `return`. -/
def WALAInstance.getCAstEntityInfo (self : WALAInstance) : Option jobject × WALAInstance :=
  let r := (getCAstEntityInfo.body self.castEntities).run self.JavaEnv
  (r.1, { self with JavaEnv := r.2 })

/-- The `TRY` block of `WALAInstance::createCAstSourcePositionRecorder`, up to
the assignment. -/
def createCAstSourcePositionRecorder.body : TryBlock jobject := do
  let CAstSourcePositionRecorderClass ← FindClass .CAstSourcePositionRecorder
  THROW_ANY_EXCEPTION
  let CAstSourcePositionRecorderClassConstructor ←
    GetMethodID CAstSourcePositionRecorderClass .init
  THROW_ANY_EXCEPTION
  let CAstSourcePositionRecorderObject ←
    NewObject CAstSourcePositionRecorderClass CAstSourcePositionRecorderClassConstructor []
  THROW_ANY_EXCEPTION
  pure CAstSourcePositionRecorderObject

/-- `WALAInstance::createCAstSourcePositionRecorder`: the assignment to
`CurrentCAstSourcePositionRecorder` is the last statement of the `TRY` block. -/
def WALAInstance.createCAstSourcePositionRecorder (self : WALAInstance) : WALAInstance :=
  let r := createCAstSourcePositionRecorder.body.run self.JavaEnv
  match r.1 with
  | some CAstSourcePositionRecorderObject =>
    { self with JavaEnv := r.2,
                CurrentCAstSourcePositionRecorder := CAstSourcePositionRecorderObject }
  | none => { self with JavaEnv := r.2 }

/-- The `TRY` block of `WALAInstance::addSourceInfo`. -/
def addSourceInfo.body (CurrentCAstSourcePositionRecorder : jobject) (CAstNode : jobject)
    (instrInfo : InstrInfo) : TryBlock Unit := do
  let CAstSourcePositionRecorderClass ← FindClass .CAstSourcePositionRecorder
  THROW_ANY_EXCEPTION
  let CAstSourcePositionRecorderClassSetPositionMethod ←
    GetMethodID CAstSourcePositionRecorderClass .setPosition
  THROW_ANY_EXCEPTION
  match instrInfo.srcType with
  | .INVALID => pure ()
  | .FULL =>
    let fl := instrInfo.startLine
    let fc := instrInfo.startCol
    let ll := instrInfo.endLine
    let lc := instrInfo.endCol
    let location ← makeLocation fl fc ll lc
    CallVoidMethod CurrentCAstSourcePositionRecorder
      CAstSourcePositionRecorderClassSetPositionMethod [.l CAstNode, .l location]
    THROW_ANY_EXCEPTION
  | .STARTONLY =>
    let fl := instrInfo.startLine
    let fc := instrInfo.startCol
    let ll := instrInfo.startLine
    let lc := instrInfo.startCol
    let location ← makeLocation fl fc ll lc
    CallVoidMethod CurrentCAstSourcePositionRecorder
      CAstSourcePositionRecorderClassSetPositionMethod [.l CAstNode, .l location]
    THROW_ANY_EXCEPTION

/-- `WALAInstance::addSourceInfo`. -/
def WALAInstance.addSourceInfo (self : WALAInstance) (CAstNode : jobject)
    (instrInfo : InstrInfo) : WALAInstance :=
  let r := (addSourceInfo.body self.CurrentCAstSourcePositionRecorder CAstNode instrInfo).run
    self.JavaEnv
  { self with JavaEnv := r.2 }

/-- `WALAInstance::getCurrentCAstSourcePositionRecorder`. -/
def WALAInstance.getCurrentCAstSourcePositionRecorder (self : WALAInstance) : jobject :=
  self.CurrentCAstSourcePositionRecorder

/-! ## What the Java side sees -/

/-- A view of the heap: the object each reference denotes. -/
abbrev HeapView := jobject → Option JavaObject

/-- Reads every reference of a list with `f`; fails when one read fails. -/
def readAll {α : Type} (f : jobject → Option α) : List jobject → Option (List α)
  | [] => some []
  | r :: rest =>
    match f r, readAll f rest with
    | some a, some as => some (a :: as)
    | _, _ => none

/-- The UTF-16 code units of a `java.lang.String`. -/
def readString (d : HeapView) (r : jobject) : Option (List Nat) :=
  match d r with
  | some (.JString cs) => some cs
  | _ => none

/-- The elements of an `ArrayList`, in order. -/
def readList (d : HeapView) (r : jobject) : Option (List jobject) :=
  match d r with
  | some (.ArrayList xs) => some xs
  | _ => none

/-- The strings of an `ArrayList<String>`, in order. -/
def readStrings (d : HeapView) (r : jobject) : Option (List (List Nat)) :=
  match readList d r with
  | some xs => readAll (readString d) xs
  | none => none

/-- The entries of a list of (key, string reference) pairs: each key with the
characters of its string. -/
def readEntries (d : HeapView) : List (jobject × jobject) → Option (List (jobject × List Nat))
  | [] => some []
  | kv :: rest =>
    match readString d kv.2, readEntries d rest with
    | some cs, some as => some ((kv.1, cs) :: as)
    | _, _ => none

/-- The entries of a `LinkedHashMap<CAstNode, String>`, in iteration order. -/
def readMap (d : HeapView) (r : jobject) : Option (List (jobject × List Nat)) :=
  match d r with
  | some (.LinkedHashMap es) => readEntries d es
  | _ => none

/-- Modelled from the spec: the Java class `CAstEntityInfo` is not under src.
A materialized entity record is what its constructor receives, argument by
argument in the order of the constructor signature (string, three lists,
string, two lists, map, recorder, list, position, list), named after the
fields of the entity and with its collections and strings read out. -/
structure MaterializedEntity where
  functionName : List Nat
  basicBlocks : List jobject
  callNodes : List jobject
  cfNodes : List jobject
  returnType : List Nat
  argumentTypes : List (List Nat)
  argumentNames : List (List Nat)
  variableTypes : List (jobject × List Nat)
  sourcePositionRecorder : jobject
  declNodes : List jobject
  functionPosition : jobject
  argumentPositions : List jobject
  deriving DecidableEq, Repr

/-- Reads a Java `CAstEntityInfo`. -/
def readEntity (d : HeapView) (r : jobject) : Option MaterializedEntity :=
  match d r with
  | some (.CAstEntityInfo fn bb cn cf rt aty an vt rec dn fp ap) =>
    match readString d fn, readList d bb, readList d cn, readList d cf,
      readString d rt, readStrings d aty, readStrings d an, readMap d vt,
      readList d dn, readList d ap with
    | some fn1, some bb1, some cn1, some cf1, some rt1, some at1, some an1, some vt1,
      some dn1, some ap1 =>
      some ⟨fn1, bb1, cn1, cf1, rt1, at1, an1, vt1, rec, dn1, fp, ap1⟩
    | _, _, _, _, _, _, _, _, _, _ => none
  | _ => none

/-- Reads an `ArrayList<CAstEntityInfo>`. -/
def readEntities (d : HeapView) (r : jobject) : Option (List MaterializedEntity) :=
  match readList d r with
  | some xs => readAll (readEntity d) xs
  | none => none

/-- The elements of the `ArrayList` a reference denotes. -/
def JNIEnv.readList (env : JNIEnv) (r : jobject) : Option (List jobject) :=
  Swan.readList env.deref r

/-- The entries of the `LinkedHashMap` a reference denotes, in iteration
order. -/
def JNIEnv.readMap (env : JNIEnv) (r : jobject) : Option (List (jobject × List Nat)) :=
  Swan.readMap env.deref r

/-- The records of the `ArrayList<CAstEntityInfo>` a reference denotes. -/
def JNIEnv.readEntities (env : JNIEnv) (r : jobject) : Option (List MaterializedEntity) :=
  Swan.readEntities env.deref r

/-- The heap seen from `lo` on: only the references above `lo`. -/
def JNIEnv.above (env : JNIEnv) (lo : Nat) : HeapView :=
  fun r => if lo < r then env.deref r else none

/-- Every object of the first view is in the second one. -/
def HeapView.Sub (d d1 : HeapView) : Prop :=
  ∀ r o, d r = some o → d1 r = some o

/-- A source span: start line and column, end line and column. -/
structure Span where
  startLine : jint
  startCol : jint
  endLine : jint
  endCol : jint
  deriving DecidableEq, Repr

/-- The span a recorder holds for a node (`getPosition` of the recorder, then
the four numbers of the position). -/
def JNIEnv.getPosition (env : JNIEnv) (recorder : jobject) (node : jobject) : Option Span :=
  match env.deref recorder with
  | some (.CAstSourcePositionRecorder ps) =>
    match assocGet ps node with
    | some p =>
      match env.deref p with
      | some (.Position fl fc ll lc) => some ⟨fl, fc, ll, lc⟩
      | _ => none
    | none => none
  | _ => none

/-- The positions a recorder holds. -/
def JNIEnv.recorderPositions (env : JNIEnv) (recorder : jobject) :
    Option (List (jobject × jobject)) :=
  match env.deref recorder with
  | some (.CAstSourcePositionRecorder ps) => some ps
  | _ => none

/-! ## Vocabulary of the properties -/

/-- The JNI layer works: no Java exception is pending and no call to come is
scheduled to throw. -/
def JNIEnv.quiet (env : JNIEnv) : Prop :=
  env.pending = false ∧ env.faults = []

instance (env : JNIEnv) : Decidable env.quiet := by
  unfold JNIEnv.quiet; infer_instance

/-- The string holds no NUL character and no character above U+FFFF: its
UTF-8 bytes hold no byte 0 and no four-byte form. -/
def plain (s : std_string) : Prop :=
  ∀ c ∈ s, c.toNat ≠ 0 ∧ c.toNat < 0x10000

instance (s : std_string) : Decidable (plain s) := by
  unfold plain; infer_instance

/-- The strings `getCAstEntityInfo` hands over for the fields other than
`variableTypes` hold no NUL character and no character above U+FFFF. -/
def CAstEntityInfo.plain (e : CAstEntityInfo) : Prop :=
  Swan.plain e.functionName ∧ Swan.plain e.returnType ∧
    (∀ s ∈ e.argumentTypes, Swan.plain s) ∧ (∀ s ∈ e.argumentNames, Swan.plain s)

instance (e : CAstEntityInfo) : Decidable e.plain := by
  unfold CAstEntityInfo.plain; infer_instance

/-- The record is built from the entity: every field other than
`variableTypes` is the field of the same name of the entity, a Java string
holding the text of the C++ string. -/
def MaterializedEntity.builtFrom (m : MaterializedEntity) (e : CAstEntityInfo) : Prop :=
  m.functionName = utf16 e.functionName ∧ m.basicBlocks = e.basicBlocks ∧
    m.callNodes = e.callNodes ∧ m.cfNodes = e.cfNodes ∧ m.returnType = utf16 e.returnType ∧
    m.argumentTypes = e.argumentTypes.map utf16 ∧
    m.argumentNames = e.argumentNames.map utf16 ∧
    m.sourcePositionRecorder = e.CAstSourcePositionRecorder ∧
    m.declNodes = e.declNodes ∧ m.functionPosition = e.functionPosition ∧
    m.argumentPositions = e.argumentPositions

instance (m : MaterializedEntity) (e : CAstEntityInfo) : Decidable (m.builtFrom e) := by
  unfold MaterializedEntity.builtFrom; infer_instance

/-- The record `getCAstEntityInfo` builds for an entity, as the code builds
it: every string goes through `c_str()` and `NewStringUTF`, the map is filled
by `put` entry by entry. -/
def CAstEntityInfo.materialized (e : CAstEntityInfo) : MaterializedEntity :=
  { functionName := jstring e.functionName
    basicBlocks := e.basicBlocks
    callNodes := e.callNodes
    cfNodes := e.cfNodes
    returnType := jstring e.returnType
    argumentTypes := e.argumentTypes.map jstring
    argumentNames := e.argumentNames.map jstring
    variableTypes := e.variableTypes.foldl (fun acc kv => assocPut acc kv.1 (jstring kv.2)) []
    sourcePositionRecorder := e.CAstSourcePositionRecorder
    declNodes := e.declNodes
    functionPosition := e.functionPosition
    argumentPositions := e.argumentPositions }

/-- A sequence of calls of `addCAstEntityInfo`. -/
def WALAInstance.recordAll (self : WALAInstance) (es : List CAstEntityInfo) : WALAInstance :=
  es.foldl WALAInstance.addCAstEntityInfo self

/-- A call of one of the two functions that work on the recorder. -/
inductive RecorderCall
  | createCAstSourcePositionRecorder
  | addSourceInfo (CAstNode : jobject) (instrInfo : InstrInfo)
  deriving DecidableEq, Repr

/-- Runs one call on the recorder. -/
def WALAInstance.recorderCall (self : WALAInstance) : RecorderCall → WALAInstance
  | .createCAstSourcePositionRecorder => self.createCAstSourcePositionRecorder
  | .addSourceInfo n info => self.addSourceInfo n info

/-- Runs a sequence of calls on the recorder. -/
def WALAInstance.recorderCalls (self : WALAInstance) (calls : List RecorderCall) :
    WALAInstance :=
  calls.foldl WALAInstance.recorderCall self

/-- No position is attached before a recorder is created: the calls up to the
first `createCAstSourcePositionRecorder` are calls of `addSourceInfo` with a
source info of type `INVALID`. -/
def recorderReady : List RecorderCall → Prop
  | [] => True
  | .createCAstSourcePositionRecorder :: _ => True
  | .addSourceInfo _ info :: rest => info.srcType = .INVALID ∧ recorderReady rest

/-- The current recorder is a live `CAstSourcePositionRecorder` object. -/
def WALAInstance.recorderLive (self : WALAInstance) : Prop :=
  (self.JavaEnv.recorderPositions self.CurrentCAstSourcePositionRecorder).isSome = true

instance (self : WALAInstance) : Decidable self.recorderLive := by
  unfold WALAInstance.recorderLive; infer_instance

/-- The keys of a sequence of writes in the order in which each was written
first. -/
def firstInsertionOrder (writes : List (jobject × std_string)) : List jobject :=
  writes.foldl (fun acc kv => if kv.1 ∈ acc then acc else acc ++ [kv.1]) []

/-- The value written last for a key in a sequence of writes. -/
def lastWritten : List (jobject × std_string) → jobject → Option std_string
  | [], _ => none
  | kv :: rest, k =>
    match lastWritten rest k with
    | some v => some v
    | none => if kv.1 = k then some kv.2 else none

/-- The second heap keeps every object the first one holds at a reference up
to `k`, the object `h` apart, and is not shorter. -/
def Frame (h : jobject) (k : Nat) (env env1 : JNIEnv) : Prop :=
  env.heap.length ≤ env1.heap.length ∧
    ∀ r, r ≤ k → r ≠ h → env1.deref r = env.deref r

/-- The code keeps the objects up to `k`, the object `h` apart, and its
result satisfies `Q`. -/
def JNI.Safe {α : Type} (h : jobject) (k : Nat) (m : JNI α) (Q : α → Prop) : Prop :=
  ∀ env : JNIEnv, k ≤ env.heap.length → Frame h k env (m.run env).2 ∧ Q (m.run env).1

/-- The `TRY` block keeps the objects up to `k`, the object `h` apart, and a
result it yields satisfies `Q`. -/
def TryBlock.Safe {α : Type} (h : jobject) (k : Nat) (m : TryBlock α) (Q : α → Prop) : Prop :=
  ∀ env : JNIEnv, k ≤ env.heap.length →
    Frame h k env (m.run env).2 ∧ ∀ a, (m.run env).1 = some a → Q a

/-! ## Concrete inputs -/

/-- A JNI environment with an empty heap in which every call succeeds. -/
def Example.env : JNIEnv :=
  ⟨[], false, []⟩

/-- A session with no entity, two produced nodes and no recorder yet. -/
def Example.session : WALAInstance :=
  ⟨Example.env, [], [31, 32], 0⟩

/-- The entity "f": two basic blocks, one call node, return type "Void"; its
argument name holds `x`, U+03C0 and U+20AC, characters of one, two and three
bytes in UTF-8. -/
def Example.f : CAstEntityInfo :=
  { functionName := ['f']
    basicBlocks := [11, 12]
    callNodes := [13]
    cfNodes := []
    returnType := ['V', 'o', 'i', 'd']
    argumentTypes := [['I', 'n', 't']]
    argumentNames := [['x', Char.ofNat 0x3C0, Char.ofNat 0x20AC]]
    variableTypes := [(11, ['I', 'n', 't']), (12, ['S', 't', 'r', 'i', 'n', 'g'])]
    CAstSourcePositionRecorder := 0
    declNodes := []
    functionPosition := 20
    argumentPositions := [] }

/-- The entity "g": no basic block, no call node, return type "Int". -/
def Example.g : CAstEntityInfo :=
  { functionName := ['g']
    basicBlocks := []
    callNodes := []
    cfNodes := []
    returnType := ['I', 'n', 't']
    argumentTypes := []
    argumentNames := []
    variableTypes := []
    CAstSourcePositionRecorder := 0
    declNodes := []
    functionPosition := 21
    argumentPositions := [] }

/-- An entity whose function name holds a NUL between `a` and `b`. -/
def Example.withNul : CAstEntityInfo :=
  { Example.g with functionName := ['a', Char.ofNat 0, 'b'] }

/-- An entity whose function name is `a` followed by the character U+1F600,
which is above U+FFFF. -/
def Example.withAstral : CAstEntityInfo :=
  { Example.g with functionName := ['a', Char.ofNat 0x1F600] }

/-- The session after `createCAstSourcePositionRecorder`: a recorder is
active. -/
def Example.recording : WALAInstance :=
  Example.session.createCAstSourcePositionRecorder

/-- The session in a JNI environment whose next call throws. -/
def Example.lookupFails : WALAInstance :=
  { Example.session with JavaEnv := ⟨[], false, [true]⟩ }

/-- The writes `m[2] = "Int"`, `m[1] = "String"`, `m[2] = "Int"`: node 2 is
inserted first, then node 1, then node 2 is overwritten. -/
def Example.writes : List (jobject × std_string) :=
  [(2, ['I', 'n', 't']), (1, ['S', 't', 'r', 'i', 'n', 'g']), (2, ['I', 'n', 't'])]

/-- An entity whose `variableTypes` holds, for node 11, a type string with a
NUL between `a` and `b`. -/
def Example.nulType : CAstEntityInfo :=
  { Example.g with variableTypes := [(11, ['a', Char.ofNat 0, 'b'])] }

/-- An entity whose `variableTypes` holds, for node 11, the type string `a`
followed by the character U+1F600, which is above U+FFFF. -/
def Example.astralType : CAstEntityInfo :=
  { Example.g with variableTypes := [(11, ['a', Char.ofNat 0x1F600])] }

/-- A session holding the entity "g" in a JNI environment whose forty-second
call throws: the call of `add` that puts the record of "g" into the result
list. -/
def Example.addThrows : WALAInstance :=
  { Example.session with
    JavaEnv := ⟨[], false, List.replicate 41 false ++ [true]⟩
    castEntities := [Example.g] }

/-! ## The monads -/

@[simp] theorem JNI.run_pure_eq {α : Type} (a : α) (env : JNIEnv) :
    (pure a : JNI α).run env = (a, env) := rfl

@[simp] theorem JNI.run_bind_eq {α β : Type} (m : JNI α) (f : α → JNI β) (env : JNIEnv) :
    (m >>= f).run env = (f (m.run env).1).run (m.run env).2 := rfl

@[simp] theorem TryBlock.run_pure_some {α : Type} (a : α) (env : JNIEnv) :
    (pure a : TryBlock α).run env = (some a, env) := rfl

theorem TryBlock.run_bind_match {α β : Type} (m : TryBlock α) (f : α → TryBlock β) (env : JNIEnv) :
    (m >>= f).run env =
      match (m.run env).1 with
      | some a => (f a).run (m.run env).2
      | none => (none, (m.run env).2) := rfl

@[simp] theorem TryBlock.run_lift {α : Type} (m : JNI α) (env : JNIEnv) :
    (liftM m : TryBlock α).run env = (some (m.run env).1, (m.run env).2) := rfl

@[simp] theorem TryBlock.run_lift_bind {α β : Type} (m : JNI α) (f : α → TryBlock β)
    (env : JNIEnv) :
    ((liftM m : TryBlock α) >>= f).run env = (f (m.run env).1).run (m.run env).2 := rfl

@[simp] theorem TryBlock.run_throw_bind {β : Type} (f : Unit → TryBlock β) (env : JNIEnv) :
    (THROW_ANY_EXCEPTION >>= f).run env =
      if env.pending then (none, env) else (f ()).run env := by
  rw [TryBlock.run_bind_match]
  unfold THROW_ANY_EXCEPTION
  by_cases h : env.pending <;> simp [h]

/-! ## The heap -/

@[simp] theorem JNIEnv.alloc_fst (env : JNIEnv) (o : JavaObject) :
    (env.alloc o).1 = env.heap.length + 1 := rfl

@[simp] theorem JNIEnv.alloc_length (env : JNIEnv) (o : JavaObject) :
    (env.alloc o).2.heap.length = env.heap.length + 1 := by
  simp [JNIEnv.alloc]

@[simp] theorem JNIEnv.alloc_pending (env : JNIEnv) (o : JavaObject) :
    (env.alloc o).2.pending = env.pending := rfl

@[simp] theorem JNIEnv.alloc_faults (env : JNIEnv) (o : JavaObject) :
    (env.alloc o).2.faults = env.faults := rfl

@[simp] theorem JNIEnv.store_length (env : JNIEnv) (r : Nat) (o : JavaObject) :
    (env.store r o).heap.length = env.heap.length := by
  unfold JNIEnv.store
  split <;> simp

@[simp] theorem JNIEnv.store_pending (env : JNIEnv) (r : Nat) (o : JavaObject) :
    (env.store r o).pending = env.pending := by
  unfold JNIEnv.store
  split <;> rfl

@[simp] theorem JNIEnv.store_faults (env : JNIEnv) (r : Nat) (o : JavaObject) :
    (env.store r o).faults = env.faults := by
  unfold JNIEnv.store
  split <;> rfl

@[simp] theorem JNIEnv.raise_heap (env : JNIEnv) : env.raise.heap = env.heap := rfl

@[simp] theorem JNIEnv.raise_pending (env : JNIEnv) : env.raise.pending = true := rfl

@[simp] theorem JNIEnv.raise_faults (env : JNIEnv) : env.raise.faults = env.faults := rfl

@[simp] theorem JNIEnv.raise_deref (env : JNIEnv) (r : Nat) :
    env.raise.deref r = env.deref r := rfl

@[simp] theorem JNIEnv.enter_heap (env : JNIEnv) : env.enter.2.heap = env.heap := by
  unfold JNIEnv.enter
  split <;> rfl

@[simp] theorem JNIEnv.enter_deref (env : JNIEnv) (r : Nat) :
    env.enter.2.deref r = env.deref r := by
  unfold JNIEnv.deref
  rw [JNIEnv.enter_heap]

theorem JNIEnv.enter_quiet {env : JNIEnv} (hq : env.quiet) : env.enter = (true, env) := by
  obtain ⟨hp, hf⟩ := hq
  unfold JNIEnv.enter
  rw [hf]
  simp [hp]

theorem JNIEnv.deref_zero (env : JNIEnv) : env.deref 0 = none := by
  simp [JNIEnv.deref]

theorem JNIEnv.deref_none_of_lt {env : JNIEnv} {r : Nat} (h : env.heap.length < r) :
    env.deref r = none := by
  unfold JNIEnv.deref
  split
  · rfl
  · exact List.getElem?_eq_none (by omega)

theorem JNIEnv.le_of_deref {env : JNIEnv} {r : Nat} {o : JavaObject}
    (h : env.deref r = some o) : r ≤ env.heap.length := by
  by_contra hlt
  rw [JNIEnv.deref_none_of_lt (by omega)] at h
  exact Option.noConfusion h

theorem JNIEnv.ne_zero_of_deref {env : JNIEnv} {r : Nat} {o : JavaObject}
    (h : env.deref r = some o) : r ≠ 0 := by
  intro h0
  rw [h0, JNIEnv.deref_zero] at h
  exact Option.noConfusion h

theorem JNIEnv.deref_alloc (env : JNIEnv) (o : JavaObject) (r : Nat) :
    (env.alloc o).2.deref r = if r = env.heap.length + 1 then some o else env.deref r := by
  unfold JNIEnv.deref JNIEnv.alloc
  by_cases h0 : r = 0
  · simp [h0]
  · by_cases h1 : r = env.heap.length + 1
    · simp [h1]
    · simp only [h0, h1, if_false]
      by_cases h2 : r - 1 < env.heap.length
      · rw [List.getElem?_append_left h2]
      · rw [List.getElem?_eq_none (by simp; omega), List.getElem?_eq_none (by omega)]

theorem JNIEnv.deref_store (env : JNIEnv) (h : Nat) (o : JavaObject) (r : Nat) :
    (env.store h o).deref r =
      if r = h ∧ (env.deref h).isSome = true then some o else env.deref r := by
  unfold JNIEnv.store
  by_cases h0 : h = 0
  · simp [h0, JNIEnv.deref_zero]
  · simp only [h0, if_false]
    unfold JNIEnv.deref
    by_cases hr : r = 0
    · have : ¬ (0 = h) := by omega
      simp [hr, this]
    · simp only [hr, h0, if_false]
      rw [List.getElem?_set]
      by_cases hrh : r = h
      · subst hrh
        by_cases hlt : r - 1 < env.heap.length
        · simp [hlt]
        · have hn : env.heap[r - 1]? = none := List.getElem?_eq_none (by omega)
          simp [hlt, hn]
      · have : ¬ (h - 1 = r - 1) := by omega
        simp [this, hrh]

theorem JNIEnv.deref_store_self {env : JNIEnv} {h : Nat} {o1 : JavaObject}
    (hd : env.deref h = some o1) (o : JavaObject) : (env.store h o).deref h = some o := by
  rw [JNIEnv.deref_store]
  simp [hd]

theorem JNIEnv.deref_store_ne {env : JNIEnv} {h r : Nat} (hne : r ≠ h) (o : JavaObject) :
    (env.store h o).deref r = env.deref r := by
  rw [JNIEnv.deref_store]
  simp [hne]

theorem JNIEnv.deref_alloc_new (env : JNIEnv) (o : JavaObject) :
    (env.alloc o).2.deref (env.heap.length + 1) = some o := by
  rw [JNIEnv.deref_alloc]
  simp

theorem JNIEnv.deref_alloc_old {env : JNIEnv} {r : Nat} (h : r ≤ env.heap.length)
    (o : JavaObject) : (env.alloc o).2.deref r = env.deref r := by
  rw [JNIEnv.deref_alloc]
  have : r ≠ env.heap.length + 1 := by omega
  simp [this]


/-! ## Which objects the code leaves alone -/

theorem Frame.same (h k : Nat) (env : JNIEnv) : Frame h k env env :=
  ⟨Nat.le_refl _, fun _ _ _ => rfl⟩

theorem Frame.comp {h k : Nat} {a b c : JNIEnv} (hab : Frame h k a b) (hbc : Frame h k b c) :
    Frame h k a c :=
  ⟨Nat.le_trans hab.1 hbc.1, fun r hr hne => (hbc.2 r hr hne).trans (hab.2 r hr hne)⟩

theorem Frame.mono {h k k1 : Nat} {a b : JNIEnv} (hk : k1 ≤ k) (hab : Frame h k a b) :
    Frame h k1 a b :=
  ⟨hab.1, fun r hr hne => hab.2 r (Nat.le_trans hr hk) hne⟩

theorem Frame.enter (h k : Nat) (env : JNIEnv) : Frame h k env env.enter.2 :=
  ⟨by simp, fun r _ _ => JNIEnv.enter_deref env r⟩

theorem Frame.raise (h k : Nat) (env : JNIEnv) : Frame h k env env.raise :=
  ⟨by simp, fun _ _ _ => rfl⟩

theorem Frame.enter_raise (h k : Nat) (env : JNIEnv) : Frame h k env env.enter.2.raise :=
  (Frame.enter h k env).comp (Frame.raise h k _)

theorem Frame.alloc (h : Nat) {k : Nat} {env : JNIEnv} (hk : k ≤ env.heap.length)
    (o : JavaObject) : Frame h k env (env.alloc o).2 :=
  ⟨by simp, fun r hr _ => JNIEnv.deref_alloc_old (Nat.le_trans hr hk) o⟩

theorem Frame.store {h k obj : Nat} (env : JNIEnv) (hobj : obj = h ∨ k < obj)
    (o : JavaObject) : Frame h k env (env.store obj o) := by
  refine ⟨by simp, fun r hr hne => JNIEnv.deref_store_ne ?_ o⟩
  rcases hobj with rfl | hlt
  · exact hne
  · omega

theorem Frame.enter_alloc (h : Nat) {k : Nat} {env : JNIEnv} (hk : k ≤ env.heap.length)
    (o : JavaObject) : Frame h k env (env.enter.2.alloc o).2 :=
  (Frame.enter h k env).comp (Frame.alloc h (by simpa using hk) o)

theorem Frame.enter_store {h k obj : Nat} (env : JNIEnv) (hobj : obj = h ∨ k < obj)
    (o : JavaObject) : Frame h k env (env.enter.2.store obj o) :=
  (Frame.enter h k env).comp (Frame.store _ hobj o)

theorem JNI.Safe.pure_jni {α : Type} {h k : Nat} {Q : α → Prop} {a : α} (hQ : Q a) :
    JNI.Safe h k (Pure.pure a) Q :=
  fun env _ => ⟨Frame.same h k env, hQ⟩

theorem JNI.Safe.bind_jni {α β : Type} {h k : Nat} {m : JNI α} {f : α → JNI β} {Q : α → Prop}
    {R : β → Prop} (hm : JNI.Safe h k m Q) (hf : ∀ a, Q a → JNI.Safe h k (f a) R) :
    JNI.Safe h k (m >>= f) R := by
  intro env hk
  obtain ⟨hfr, hq⟩ := hm env hk
  obtain ⟨hfr1, hr⟩ := hf _ hq (m.run env).2 (Nat.le_trans hk hfr.1)
  exact ⟨hfr.comp hfr1, hr⟩

theorem FindClass_safe (h k : Nat) (name : JavaClass) :
    JNI.Safe h k (FindClass name) (fun _ => True) := by
  intro env _
  refine ⟨?_, trivial⟩
  unfold FindClass
  dsimp only
  split
  · exact Frame.enter h k env
  · exact Frame.enter_raise h k env

theorem GetMethodID_safe (h k : Nat) (cls : jclass) (m : JavaMethod) :
    JNI.Safe h k (GetMethodID cls m) (fun _ => True) := by
  intro env _
  refine ⟨?_, trivial⟩
  unfold GetMethodID
  dsimp only
  split
  · split
    · split
      · exact Frame.enter h k env
      · exact Frame.enter_raise h k env
    · exact Frame.enter_raise h k env
  · exact Frame.enter_raise h k env

theorem NewStringUTF_safe (h k : Nat) (bytes : List Nat) :
    JNI.Safe h k (NewStringUTF bytes) (fun _ => True) := by
  intro env hk
  refine ⟨?_, trivial⟩
  unfold NewStringUTF
  dsimp only
  split
  · exact Frame.enter_alloc h hk _
  · exact Frame.enter_raise h k env

theorem makeLocation_safe (h k : Nat) (fl fc ll lc : jint) :
    JNI.Safe h k (makeLocation fl fc ll lc) (fun _ => True) := by
  intro env hk
  refine ⟨?_, trivial⟩
  unfold makeLocation
  dsimp only
  split
  · exact Frame.enter_alloc h hk _
  · exact Frame.enter_raise h k env

theorem NewObject_safe (h k : Nat) (cls : jclass) (ctor : jmethodID) (args : List jvalue) :
    JNI.Safe h k (NewObject cls ctor args) (fun r => r = 0 ∨ k < r) := by
  intro env hk
  unfold NewObject
  dsimp only
  split
  · split
    · refine ⟨Frame.enter_alloc h hk _, Or.inr ?_⟩
      simp only [JNIEnv.alloc_fst, JNIEnv.enter_heap]
      omega
    · exact ⟨Frame.enter_raise h k env, Or.inl rfl⟩
  · exact ⟨Frame.enter_raise h k env, Or.inl rfl⟩

theorem receiver_new {h k r : Nat} (hr : r = 0 ∨ k < r) : r = h ∨ k < r ∨ r = 0 :=
  hr.elim (fun h0 => Or.inr (Or.inr h0)) (fun hk => Or.inr (Or.inl hk))

theorem CallMethod_safe {h k obj : Nat} (hobj : obj = h ∨ k < obj ∨ obj = 0) (mid : jmethodID)
    (args : List jvalue) : JNI.Safe h k (CallMethod obj mid args) (fun _ => True) := by
  intro env _
  refine ⟨?_, trivial⟩
  unfold CallMethod
  dsimp only
  split
  · split
    · rename_i o1 hinv
      rcases hobj with h1 | h1 | h1
      · exact Frame.enter_store env (Or.inl h1) _
      · exact Frame.enter_store env (Or.inr h1) _
      · subst h1
        unfold invoked at hinv
        rw [JNIEnv.deref_zero] at hinv
        cases mid <;> simp at hinv
    · exact Frame.enter_raise h k env
  · exact Frame.enter_raise h k env

theorem CallBooleanMethod_safe {h k obj : Nat} (hobj : obj = h ∨ k < obj ∨ obj = 0)
    (mid : jmethodID) (args : List jvalue) :
    JNI.Safe h k (CallBooleanMethod obj mid args) (fun _ => True) :=
  CallMethod_safe hobj mid args

theorem CallVoidMethod_safe {h k obj : Nat} (hobj : obj = h ∨ k < obj ∨ obj = 0)
    (mid : jmethodID) (args : List jvalue) :
    JNI.Safe h k (CallVoidMethod obj mid args) (fun _ => True) :=
  fun env hk => ⟨(CallMethod_safe hobj mid args env hk).1, trivial⟩

theorem addEach_safe {h k list : Nat} (hl : list = h ∨ k < list ∨ list = 0) (add : jmethodID)
    (v : List jobject) : JNI.Safe h k (addEach list add v) (fun _ => True) := by
  induction v with
  | nil => exact JNI.Safe.pure_jni trivial
  | cons x rest ih =>
    unfold addEach
    exact JNI.Safe.bind_jni (CallBooleanMethod_safe hl add _) fun _ _ => ih

theorem addEachString_safe {h k list : Nat} (hl : list = h ∨ k < list ∨ list = 0)
    (add : jmethodID) (v : List std_string) :
    JNI.Safe h k (addEachString list add v) (fun _ => True) := by
  induction v with
  | nil => exact JNI.Safe.pure_jni trivial
  | cons x rest ih =>
    unfold addEachString
    refine JNI.Safe.bind_jni (NewStringUTF_safe h k _) fun s _ => ?_
    exact JNI.Safe.bind_jni (CallBooleanMethod_safe hl add _) fun _ _ => ih

theorem putEach_safe {h k map : Nat} (hl : map = h ∨ k < map ∨ map = 0) (put : jmethodID)
    (m : std_map) : JNI.Safe h k (putEach map put m) (fun _ => True) := by
  induction m with
  | nil => exact JNI.Safe.pure_jni trivial
  | cons x rest ih =>
    unfold putEach
    refine JNI.Safe.bind_jni (NewStringUTF_safe h k _) fun s _ => ?_
    exact JNI.Safe.bind_jni (CallVoidMethod_safe hl put _) fun _ _ => ih

theorem vectorToArrayList_safe (h k : Nat) (v : List jobject) :
    JNI.Safe h k (vectorToArrayList v) (fun r => r = 0 ∨ k < r) := by
  unfold vectorToArrayList
  refine JNI.Safe.bind_jni (FindClass_safe h k _) fun cls _ => ?_
  refine JNI.Safe.bind_jni (GetMethodID_safe h k _ _) fun ctor _ => ?_
  refine JNI.Safe.bind_jni (GetMethodID_safe h k _ _) fun add _ => ?_
  refine JNI.Safe.bind_jni (NewObject_safe h k _ _ _) fun r hr => ?_
  refine JNI.Safe.bind_jni (addEach_safe (receiver_new hr) _ _) fun _ _ => ?_
  exact JNI.Safe.pure_jni hr

theorem getCAstNodes_body_safe (h k : Nat) (v : List jobject) :
    JNI.Safe h k (getCAstNodes.body v) (fun r => r = 0 ∨ k < r) := by
  unfold getCAstNodes.body
  refine JNI.Safe.bind_jni (FindClass_safe h k _) fun cls _ => ?_
  refine JNI.Safe.bind_jni (GetMethodID_safe h k _ _) fun ctor _ => ?_
  refine JNI.Safe.bind_jni (GetMethodID_safe h k _ _) fun add _ => ?_
  refine JNI.Safe.bind_jni (NewObject_safe h k _ _ _) fun r hr => ?_
  refine JNI.Safe.bind_jni (addEach_safe (receiver_new hr) _ _) fun _ _ => ?_
  exact JNI.Safe.pure_jni hr

theorem getArgumentTypesOfEntityInfo_safe (h k : Nat) (v : List std_string) :
    JNI.Safe h k (getArgumentTypesOfEntityInfo v) (fun r => r = 0 ∨ k < r) := by
  unfold getArgumentTypesOfEntityInfo
  refine JNI.Safe.bind_jni (FindClass_safe h k _) fun cls _ => ?_
  refine JNI.Safe.bind_jni (GetMethodID_safe h k _ _) fun ctor _ => ?_
  refine JNI.Safe.bind_jni (GetMethodID_safe h k _ _) fun add _ => ?_
  refine JNI.Safe.bind_jni (NewObject_safe h k _ _ _) fun r hr => ?_
  refine JNI.Safe.bind_jni (addEachString_safe (receiver_new hr) _ _) fun _ _ => ?_
  exact JNI.Safe.pure_jni hr

theorem mapToLinkedHashMap_safe (h k : Nat) (m : std_map) :
    JNI.Safe h k (mapToLinkedHashMap m) (fun r => r = 0 ∨ k < r) := by
  unfold mapToLinkedHashMap
  refine JNI.Safe.bind_jni (FindClass_safe h k _) fun cls _ => ?_
  refine JNI.Safe.bind_jni (GetMethodID_safe h k _ _) fun ctor _ => ?_
  refine JNI.Safe.bind_jni (GetMethodID_safe h k _ _) fun put _ => ?_
  refine JNI.Safe.bind_jni (NewObject_safe h k _ _ _) fun r hr => ?_
  refine JNI.Safe.bind_jni (putEach_safe (receiver_new hr) _ _) fun _ _ => ?_
  exact JNI.Safe.pure_jni hr


theorem TryBlock.Safe.pure_try {α : Type} {h k : Nat} {Q : α → Prop} {a : α} (hQ : Q a) :
    TryBlock.Safe h k (Pure.pure a) Q := by
  intro env _
  refine ⟨Frame.same h k env, fun b hb => ?_⟩
  rw [TryBlock.run_pure_some] at hb
  cases hb
  exact hQ

theorem TryBlock.Safe.bind_try {α β : Type} {h k : Nat} {m : TryBlock α} {f : α → TryBlock β}
    {Q : α → Prop} {R : β → Prop} (hm : TryBlock.Safe h k m Q)
    (hf : ∀ a, Q a → TryBlock.Safe h k (f a) R) : TryBlock.Safe h k (m >>= f) R := by
  intro env hk
  obtain ⟨hfr, hq⟩ := hm env hk
  rw [TryBlock.run_bind_match]
  cases hres : (m.run env).1 with
  | none => exact ⟨hfr, fun b hb => Option.noConfusion hb⟩
  | some a =>
    obtain ⟨hfr1, hr⟩ := hf a (hq a hres) (m.run env).2 (Nat.le_trans hk hfr.1)
    exact ⟨hfr.comp hfr1, hr⟩

theorem TryBlock.Safe.lift {α : Type} {h k : Nat} {m : JNI α} {Q : α → Prop}
    (hm : JNI.Safe h k m Q) : TryBlock.Safe h k (liftM m) Q := by
  intro env hk
  obtain ⟨hfr, hq⟩ := hm env hk
  refine ⟨hfr, fun b hb => ?_⟩
  rw [TryBlock.run_lift] at hb
  cases hb
  exact hq

theorem TryBlock.Safe.throw (h k : Nat) : TryBlock.Safe h k THROW_ANY_EXCEPTION (fun _ => True) := by
  intro env _
  refine ⟨?_, fun _ _ => trivial⟩
  unfold THROW_ANY_EXCEPTION
  dsimp only
  split <;> exact Frame.same h k env

theorem TryBlock.Safe.checked {α : Type} {h k : Nat} {m : JNI α} {Q : α → Prop}
    {β : Type} {f : α → TryBlock β} {R : β → Prop} (hm : JNI.Safe h k m Q)
    (hf : ∀ a, Q a → TryBlock.Safe h k (f a) R) :
    TryBlock.Safe h k (liftM m >>= fun a => THROW_ANY_EXCEPTION >>= fun _ => f a) R :=
  TryBlock.Safe.bind_try (TryBlock.Safe.lift hm) fun a ha =>
    TryBlock.Safe.bind_try (TryBlock.Safe.throw h k) fun _ _ => hf a ha

theorem getCAstEntityInfo_round_safe {h k list : Nat} (hl : list = h ∨ k < list ∨ list = 0)
    (add : jmethodID) (info : CAstEntityInfo) :
    TryBlock.Safe h k (getCAstEntityInfo.round list add info) (fun _ => True) := by
  unfold getCAstEntityInfo.round
  refine TryBlock.Safe.checked (FindClass_safe h k _) fun cls _ => ?_
  refine TryBlock.Safe.checked (GetMethodID_safe h k _ _) fun ctor _ => ?_
  refine TryBlock.Safe.checked (NewStringUTF_safe h k _) fun fn _ => ?_
  refine TryBlock.Safe.checked (vectorToArrayList_safe h k _) fun bb _ => ?_
  refine TryBlock.Safe.checked (vectorToArrayList_safe h k _) fun cn _ => ?_
  refine TryBlock.Safe.checked (vectorToArrayList_safe h k _) fun cf _ => ?_
  refine TryBlock.Safe.checked (NewStringUTF_safe h k _) fun rt _ => ?_
  refine TryBlock.Safe.checked (getArgumentTypesOfEntityInfo_safe h k _) fun aty _ => ?_
  refine TryBlock.Safe.checked (getArgumentTypesOfEntityInfo_safe h k _) fun an _ => ?_
  refine TryBlock.Safe.checked (mapToLinkedHashMap_safe h k _) fun vt _ => ?_
  refine TryBlock.Safe.checked (vectorToArrayList_safe h k _) fun dn _ => ?_
  refine TryBlock.Safe.checked (vectorToArrayList_safe h k _) fun ap _ => ?_
  refine TryBlock.Safe.bind_try (TryBlock.Safe.lift (NewObject_safe h k _ _ _)) fun obj _ => ?_
  refine TryBlock.Safe.bind_try (TryBlock.Safe.lift (CallBooleanMethod_safe hl _ _)) fun _ _ => ?_
  exact TryBlock.Safe.pure_try trivial

theorem getCAstEntityInfo_loop_safe {h k list : Nat} (hl : list = h ∨ k < list ∨ list = 0)
    (add : jmethodID) (es : List CAstEntityInfo) :
    TryBlock.Safe h k (getCAstEntityInfo.loop list add es) (fun _ => True) := by
  induction es with
  | nil => exact TryBlock.Safe.pure_try trivial
  | cons e rest ih =>
    unfold getCAstEntityInfo.loop
    exact TryBlock.Safe.bind_try (getCAstEntityInfo_round_safe hl add e) fun _ _ => ih

theorem getCAstEntityInfo_body_safe (h k : Nat) (es : List CAstEntityInfo) :
    TryBlock.Safe h k (getCAstEntityInfo.body es) (fun r => r = 0 ∨ k < r) := by
  unfold getCAstEntityInfo.body
  refine TryBlock.Safe.checked (FindClass_safe h k _) fun cls _ => ?_
  refine TryBlock.Safe.checked (GetMethodID_safe h k _ _) fun ctor _ => ?_
  refine TryBlock.Safe.bind_try (TryBlock.Safe.lift (GetMethodID_safe h k _ _)) fun add _ => ?_
  refine TryBlock.Safe.bind_try (TryBlock.Safe.lift (NewObject_safe h k _ _ _)) fun r hr => ?_
  refine TryBlock.Safe.bind_try (getCAstEntityInfo_loop_safe (receiver_new hr) _ _) fun _ _ => ?_
  exact TryBlock.Safe.pure_try hr

theorem createCAstSourcePositionRecorder_body_safe (h k : Nat) :
    TryBlock.Safe h k createCAstSourcePositionRecorder.body (fun r => r = 0 ∨ k < r) := by
  unfold createCAstSourcePositionRecorder.body
  refine TryBlock.Safe.checked (FindClass_safe h k _) fun cls _ => ?_
  refine TryBlock.Safe.checked (GetMethodID_safe h k _ _) fun ctor _ => ?_
  refine TryBlock.Safe.checked (NewObject_safe h k _ _ _) fun r hr => ?_
  exact TryBlock.Safe.pure_try hr

theorem addSourceInfo_body_safe (h k : Nat) (node : jobject) (info : InstrInfo) :
    TryBlock.Safe h k (addSourceInfo.body h node info) (fun _ => True) := by
  unfold addSourceInfo.body
  refine TryBlock.Safe.checked (FindClass_safe h k _) fun cls _ => ?_
  refine TryBlock.Safe.checked (GetMethodID_safe h k _ _) fun setPos _ => ?_
  cases info.srcType with
  | INVALID => exact TryBlock.Safe.pure_try trivial
  | FULL =>
    refine TryBlock.Safe.bind_try (TryBlock.Safe.lift (makeLocation_safe h k _ _ _ _)) fun loc _ => ?_
    refine TryBlock.Safe.bind_try (TryBlock.Safe.lift
      (CallVoidMethod_safe (Or.inl rfl) _ _)) fun _ _ => ?_
    exact TryBlock.Safe.throw h k
  | STARTONLY =>
    refine TryBlock.Safe.bind_try (TryBlock.Safe.lift (makeLocation_safe h k _ _ _ _)) fun loc _ => ?_
    refine TryBlock.Safe.bind_try (TryBlock.Safe.lift
      (CallVoidMethod_safe (Or.inl rfl) _ _)) fun _ _ => ?_
    exact TryBlock.Safe.throw h k

/-! ## When the JNI layer works -/

theorem JNIEnv.quiet_alloc {env : JNIEnv} (hq : env.quiet) (o : JavaObject) :
    (env.alloc o).2.quiet :=
  ⟨hq.1, hq.2⟩

theorem JNIEnv.quiet_store {env : JNIEnv} (hq : env.quiet) (r : Nat) (o : JavaObject) :
    (env.store r o).quiet :=
  ⟨by rw [JNIEnv.store_pending]; exact hq.1, by rw [JNIEnv.store_faults]; exact hq.2⟩

theorem FindClass_quiet {env : JNIEnv} (hq : env.quiet) (name : JavaClass) :
    (FindClass name).run env = (some name, env) := by
  simp [FindClass, JNIEnv.enter_quiet hq]

theorem GetMethodID_quiet {env : JNIEnv} (hq : env.quiet) {c : JavaClass} {m : JavaMethod}
    (hm : hasMethod c m = true) : (GetMethodID (some c) m).run env = (some (c, m), env) := by
  simp [GetMethodID, JNIEnv.enter_quiet hq, hm]

theorem NewStringUTF_quiet {env : JNIEnv} (hq : env.quiet) (bytes : List Nat) :
    (NewStringUTF bytes).run env = env.alloc (.JString (modifiedUtf8 bytes)) := by
  simp [NewStringUTF, JNIEnv.enter_quiet hq]

theorem makeLocation_quiet {env : JNIEnv} (hq : env.quiet) (fl fc ll lc : jint) :
    (makeLocation fl fc ll lc).run env = env.alloc (.Position fl fc ll lc) := by
  simp [makeLocation, JNIEnv.enter_quiet hq]

theorem NewObject_quiet {env : JNIEnv} (hq : env.quiet) {cls : jclass} {ctor : jmethodID}
    {args : List jvalue} {o : JavaObject} (hc : constructed cls ctor args = some o) :
    (NewObject cls ctor args).run env = env.alloc o := by
  simp [NewObject, JNIEnv.enter_quiet hq, hc]

theorem CallMethod_quiet {env : JNIEnv} (hq : env.quiet) {obj : Nat} {mid : jmethodID}
    {args : List jvalue} {o1 : JavaObject} (hi : invoked env obj mid args = some o1) :
    (CallMethod obj mid args).run env = (true, env.store obj o1) := by
  simp [CallMethod, JNIEnv.enter_quiet hq, hi]

theorem THROW_ANY_EXCEPTION_quiet {env : JNIEnv} (hq : env.quiet) :
    THROW_ANY_EXCEPTION.run env = (some (), env) := by
  simp [THROW_ANY_EXCEPTION, hq.1]

theorem TryBlock.run_checked {α β : Type} (m : JNI α) (f : α → TryBlock β) (env : JNIEnv)
    (hq : (m.run env).2.quiet) :
    (liftM m >>= fun a => THROW_ANY_EXCEPTION >>= fun _ => f a).run env =
      (f (m.run env).1).run (m.run env).2 := by
  rw [TryBlock.run_lift_bind, TryBlock.run_throw_bind, hq.1]
  rfl

/-! ## Views of the heap -/

theorem HeapView.Sub.refl (d : HeapView) : HeapView.Sub d d :=
  fun _ _ h => h

theorem HeapView.Sub.trans {a b c : HeapView} (hab : HeapView.Sub a b) (hbc : HeapView.Sub b c) :
    HeapView.Sub a c :=
  fun r o h => hbc r o (hab r o h)

theorem JNIEnv.above_sub_deref (env : JNIEnv) (lo : Nat) :
    HeapView.Sub (env.above lo) env.deref := by
  intro r o h
  unfold JNIEnv.above at h
  split at h
  · exact h
  · exact Option.noConfusion h

theorem JNIEnv.above_mono (env : JNIEnv) {lo lo1 : Nat} (h : lo ≤ lo1) :
    HeapView.Sub (env.above lo1) (env.above lo) := by
  intro r o hr
  unfold JNIEnv.above at hr ⊢
  split at hr
  · rw [if_pos (by omega)]
    exact hr
  · exact Option.noConfusion hr

theorem JNIEnv.above_eq {env : JNIEnv} {lo r : Nat} (h : lo < r) :
    env.above lo r = env.deref r := by
  unfold JNIEnv.above
  rw [if_pos h]

theorem Frame.above {h k lo : Nat} {env env1 : JNIEnv} (hf : Frame h k env env1)
    (hh : h ≤ lo) (hk : env.heap.length ≤ k) : HeapView.Sub (env.above lo) (env1.above lo) := by
  intro r o hr
  unfold JNIEnv.above at hr ⊢
  split at hr
  · rename_i hlo
    rw [if_pos hlo, hf.2 r (Nat.le_trans (JNIEnv.le_of_deref hr) hk) (by omega)]
    exact hr
  · exact Option.noConfusion hr

theorem readString_sub {d d1 : HeapView} (hs : HeapView.Sub d d1) {r : Nat} {cs : List Nat}
    (h : readString d r = some cs) : readString d1 r = some cs := by
  unfold readString at h ⊢
  split at h
  · rename_i heq
    rw [hs _ _ heq]
    exact h
  · exact Option.noConfusion h

theorem readList_sub {d d1 : HeapView} (hs : HeapView.Sub d d1) {r : Nat} {xs : List jobject}
    (h : readList d r = some xs) : readList d1 r = some xs := by
  unfold readList at h ⊢
  split at h
  · rename_i heq
    rw [hs _ _ heq]
    exact h
  · exact Option.noConfusion h

theorem readAll_sub {α : Type} {f g : jobject → Option α}
    (hfg : ∀ r a, f r = some a → g r = some a) {xs : List jobject} {ys : List α}
    (h : readAll f xs = some ys) : readAll g xs = some ys := by
  induction xs generalizing ys with
  | nil => exact h
  | cons x rest ih =>
    unfold readAll at h ⊢
    split at h
    · rename_i a as h1 h2
      rw [hfg _ _ h1, ih h2]
      exact h
    · exact Option.noConfusion h

theorem readAll_append {α : Type} {f : jobject → Option α} {xs : List jobject} {ys : List α}
    (h : readAll f xs = some ys) {x : Nat} {y : α} (hx : f x = some y) :
    readAll f (xs ++ [x]) = some (ys ++ [y]) := by
  induction xs generalizing ys with
  | nil =>
    cases h
    simp [readAll, hx]
  | cons x1 rest ih =>
    unfold readAll at h
    split at h
    · rename_i a as h1 h2
      cases h
      rw [List.cons_append]
      unfold readAll
      rw [h1, ih h2]
      rfl
    · exact Option.noConfusion h

theorem readStrings_sub {d d1 : HeapView} (hs : HeapView.Sub d d1) {r : Nat}
    {ss : List (List Nat)} (h : readStrings d r = some ss) : readStrings d1 r = some ss := by
  unfold readStrings at h ⊢
  split at h
  · rename_i xs heq
    rw [readList_sub hs heq]
    exact readAll_sub (fun _ _ => readString_sub hs) h
  · exact Option.noConfusion h

theorem readEntries_sub {d d1 : HeapView} (hs : HeapView.Sub d d1)
    {es : List (jobject × jobject)} {ys : List (jobject × List Nat)}
    (h : readEntries d es = some ys) : readEntries d1 es = some ys := by
  induction es generalizing ys with
  | nil => exact h
  | cons x rest ih =>
    unfold readEntries at h ⊢
    split at h
    · rename_i cs as h1 h2
      rw [readString_sub hs h1, ih h2]
      exact h
    · exact Option.noConfusion h

theorem readMap_sub {d d1 : HeapView} (hs : HeapView.Sub d d1) {r : Nat}
    {ys : List (jobject × List Nat)} (h : readMap d r = some ys) : readMap d1 r = some ys := by
  unfold readMap at h ⊢
  split at h
  · rename_i es heq
    rw [hs _ _ heq]
    exact readEntries_sub hs h
  · exact Option.noConfusion h

theorem readEntries_put {d : HeapView} {es : List (jobject × jobject)}
    {ys : List (jobject × List Nat)} (h : readEntries d es = some ys) (k : Nat) {s : Nat}
    {cs : List Nat} (hs : readString d s = some cs) :
    readEntries d (assocPut es k s) = some (assocPut ys k cs) := by
  induction es generalizing ys with
  | nil =>
    cases h
    simp [assocPut, readEntries, hs]
  | cons x rest ih =>
    obtain ⟨k1, v1⟩ := x
    unfold readEntries at h
    split at h
    · rename_i cs1 as h1 h2
      cases h
      unfold assocPut
      by_cases hk : k1 = k
      · simp only [hk, if_true]
        unfold readEntries
        simp only [hs, h2]
      · simp only [hk, if_false]
        unfold readEntries
        simp only [h1, ih h2]
    · exact Option.noConfusion h

theorem readEntity_sub {d d1 : HeapView} (hs : HeapView.Sub d d1) {r : Nat}
    {m : MaterializedEntity} (h : readEntity d r = some m) : readEntity d1 r = some m := by
  unfold readEntity at h ⊢
  split at h
  · rename_i fn bb cn cf rt aty an vt rec dn fp ap heq
    rw [hs _ _ heq]
    dsimp only
    split at h
    · rename_i h1 h2 h3 h4 h5 h6 h7 h8 h9 h10
      rw [readString_sub hs h1, readList_sub hs h2, readList_sub hs h3, readList_sub hs h4,
        readString_sub hs h5, readStrings_sub hs h6, readStrings_sub hs h7, readMap_sub hs h8,
        readList_sub hs h9, readList_sub hs h10]
      exact h
    · exact Option.noConfusion h
  · exact Option.noConfusion h

theorem invoked_add {env : JNIEnv} {list : Nat} {acc : List jobject}
    (hd : env.deref list = some (.ArrayList acc)) (x : Nat) :
    invoked env list (some (.java_util_ArrayList, .add)) [.l x] =
      some (.ArrayList (acc ++ [x])) := by
  simp [invoked, hd, invoke]

theorem invoked_put {env : JNIEnv} {map : Nat} {es : List (jobject × jobject)}
    (hd : env.deref map = some (.LinkedHashMap es)) (k v : Nat) :
    invoked env map (some (.java_util_LinkedHashMap, .put)) [.l k, .l v] =
      some (.LinkedHashMap (assocPut es k v)) := by
  simp [invoked, hd, invoke]

theorem invoked_setPosition {env : JNIEnv} {rec : Nat} {ps : List (jobject × jobject)}
    (hd : env.deref rec = some (.CAstSourcePositionRecorder ps)) (n p : Nat) :
    invoked env rec (some (.CAstSourcePositionRecorder, .setPosition)) [.l n, .l p] =
      some (.CAstSourcePositionRecorder (assocPut ps n p)) := by
  simp [invoked, hd, invoke]

theorem addEach_quiet {env : JNIEnv} (hq : env.quiet) {list : Nat} {acc : List jobject}
    (hd : env.deref list = some (.ArrayList acc)) (v : List jobject) :
    ((addEach list (some (.java_util_ArrayList, .add)) v).run env).2.quiet ∧
    ((addEach list (some (.java_util_ArrayList, .add)) v).run env).2.heap.length =
      env.heap.length ∧
    ((addEach list (some (.java_util_ArrayList, .add)) v).run env).2.deref list =
      some (.ArrayList (acc ++ v)) ∧
    ∀ r : Nat, r ≠ list →
      ((addEach list (some (.java_util_ArrayList, .add)) v).run env).2.deref r = env.deref r := by
  induction v generalizing env acc with
  | nil =>
    unfold addEach
    simp [hq, hd]
  | cons x rest ih =>
    unfold addEach
    simp only [JNI.run_bind_eq, CallBooleanMethod, CallMethod_quiet hq (invoked_add hd x)]
    obtain ⟨h1, h2, h3, h4⟩ := ih (JNIEnv.quiet_store hq list _)
      (JNIEnv.deref_store_self hd (.ArrayList (acc ++ [x])))
    refine ⟨h1, ?_, ?_, ?_⟩
    · rw [h2, JNIEnv.store_length]
    · rw [h3, List.append_assoc]
      rfl
    · intro r hr
      rw [h4 r hr, JNIEnv.deref_store_ne hr]

theorem constructed_ArrayList (n : Nat) :
    constructed (some .java_util_ArrayList) (some (.java_util_ArrayList, .init_I)) [.i n] =
      some (.ArrayList []) := by
  simp [constructed, construct]

theorem vectorToArrayList_quiet {env : JNIEnv} (hq : env.quiet) (v : List jobject) :
    ((vectorToArrayList v).run env).1 = env.heap.length + 1 ∧
    ((vectorToArrayList v).run env).2.quiet ∧
    ((vectorToArrayList v).run env).2.deref (env.heap.length + 1) = some (.ArrayList v) := by
  unfold vectorToArrayList
  simp only [JNI.run_bind_eq, FindClass_quiet hq, GetMethodID_quiet hq (c := .java_util_ArrayList)
    (m := .init_I) rfl, GetMethodID_quiet hq (c := .java_util_ArrayList) (m := .add) rfl,
    NewObject_quiet hq (constructed_ArrayList v.length), JNI.run_pure_eq, JNIEnv.alloc_fst]
  obtain ⟨h1, _, h3, _⟩ := addEach_quiet (JNIEnv.quiet_alloc hq (.ArrayList []))
    (JNIEnv.deref_alloc_new env (.ArrayList [])) v
  exact ⟨trivial, h1, by simpa using h3⟩

theorem getCAstNodes_body_quiet {env : JNIEnv} (hq : env.quiet) (v : List jobject) :
    ((getCAstNodes.body v).run env).1 = env.heap.length + 1 ∧
    ((getCAstNodes.body v).run env).2.quiet ∧
    ((getCAstNodes.body v).run env).2.deref (env.heap.length + 1) = some (.ArrayList v) := by
  unfold getCAstNodes.body
  simp only [JNI.run_bind_eq, FindClass_quiet hq, GetMethodID_quiet hq (c := .java_util_ArrayList)
    (m := .init_I) rfl, GetMethodID_quiet hq (c := .java_util_ArrayList) (m := .add) rfl,
    NewObject_quiet hq (constructed_ArrayList v.length), JNI.run_pure_eq, JNIEnv.alloc_fst]
  obtain ⟨h1, _, h3, _⟩ := addEach_quiet (JNIEnv.quiet_alloc hq (.ArrayList []))
    (JNIEnv.deref_alloc_new env (.ArrayList [])) v
  exact ⟨trivial, h1, by simpa using h3⟩

theorem addEachString_quiet (lo : Nat) {env : JNIEnv} (hq : env.quiet) {list : Nat}
    (hl : list ≤ lo) (hlo : lo ≤ env.heap.length) {acc : List jobject}
    (hd : env.deref list = some (.ArrayList acc)) {ss : List (List Nat)}
    (hr : readAll (readString (env.above lo)) acc = some ss) (ts : List std_string) :
    ((addEachString list (some (.java_util_ArrayList, .add)) ts).run env).2.quiet ∧
    ∃ acc1, ((addEachString list (some (.java_util_ArrayList, .add)) ts).run env).2.deref list =
        some (.ArrayList acc1) ∧
      readAll (readString
        (((addEachString list (some (.java_util_ArrayList, .add)) ts).run env).2.above lo)) acc1 =
        some (ss ++ ts.map jstring) := by
  induction ts generalizing env acc ss with
  | nil =>
    unfold addEachString
    exact ⟨hq, acc, hd, by simpa using hr⟩
  | cons t rest ih =>
    unfold addEachString
    have hd1 : (env.alloc (.JString (modifiedUtf8 (c_str t)))).2.deref list = some (.ArrayList acc) := by
      rw [JNIEnv.deref_alloc_old (Nat.le_trans hl hlo)]
      exact hd
    have hq1 := JNIEnv.quiet_alloc hq (.JString (modifiedUtf8 (c_str t)))
    simp only [JNI.run_bind_eq, NewStringUTF_quiet hq, CallBooleanMethod,
      CallMethod_quiet hq1 (invoked_add hd1 _), JNIEnv.alloc_fst]
    have hsub : HeapView.Sub (env.above lo)
        (((env.alloc (.JString (modifiedUtf8 (c_str t)))).2.store list
          (.ArrayList (acc ++ [env.heap.length + 1]))).above lo) :=
      Frame.above ((Frame.alloc list (Nat.le_refl _) _).comp
        (Frame.store _ (Or.inl rfl) _)) hl (Nat.le_refl _)
    have hs : readString (((env.alloc (.JString (modifiedUtf8 (c_str t)))).2.store list
        (.ArrayList (acc ++ [env.heap.length + 1]))).above lo) (env.heap.length + 1) =
        some (modifiedUtf8 (c_str t)) := by
      unfold readString
      rw [JNIEnv.above_eq (by omega), JNIEnv.deref_store_ne (by omega),
        JNIEnv.deref_alloc_new]
    obtain ⟨h1, acc1, h2, h3⟩ := ih (JNIEnv.quiet_store hq1 list _) (by simp; omega)
      (JNIEnv.deref_store_self hd1 _)
      (readAll_append (readAll_sub (fun _ _ => readString_sub hsub) hr) hs)
    exact ⟨h1, acc1, h2, by simpa using h3⟩

theorem getArgumentTypesOfEntityInfo_quiet {env : JNIEnv} (hq : env.quiet)
    (ts : List std_string) :
    ((getArgumentTypesOfEntityInfo ts).run env).1 = env.heap.length + 1 ∧
    ((getArgumentTypesOfEntityInfo ts).run env).2.quiet ∧
    readStrings (((getArgumentTypesOfEntityInfo ts).run env).2.above env.heap.length)
      (env.heap.length + 1) = some (ts.map jstring) := by
  unfold getArgumentTypesOfEntityInfo
  simp only [JNI.run_bind_eq, FindClass_quiet hq, GetMethodID_quiet hq (c := .java_util_ArrayList)
    (m := .init_I) rfl, GetMethodID_quiet hq (c := .java_util_ArrayList) (m := .add) rfl,
    NewObject_quiet hq (constructed_ArrayList ts.length), JNI.run_pure_eq, JNIEnv.alloc_fst]
  obtain ⟨h1, acc1, h2, h3⟩ := addEachString_quiet (env.heap.length + 1)
    (JNIEnv.quiet_alloc hq (.ArrayList [])) (Nat.le_refl _) (by simp)
    (JNIEnv.deref_alloc_new env (.ArrayList []))
    (show readAll _ [] = some [] from rfl) ts
  refine ⟨trivial, h1, ?_⟩
  unfold readStrings readList
  rw [JNIEnv.above_eq (by omega), h2]
  exact readAll_sub (fun _ _ => readString_sub (JNIEnv.above_mono _ (Nat.le_succ env.heap.length)))
    (by simpa using h3)

theorem putEach_quiet (lo : Nat) {env : JNIEnv} (hq : env.quiet) {map : Nat}
    (hl : map ≤ lo) (hlo : lo ≤ env.heap.length) {es : List (jobject × jobject)}
    (hd : env.deref map = some (.LinkedHashMap es)) {ys : List (jobject × List Nat)}
    (hr : readEntries (env.above lo) es = some ys) (m : std_map) :
    ((putEach map (some (.java_util_LinkedHashMap, .put)) m).run env).2.quiet ∧
    ∃ es1, ((putEach map (some (.java_util_LinkedHashMap, .put)) m).run env).2.deref map =
        some (.LinkedHashMap es1) ∧
      readEntries
        (((putEach map (some (.java_util_LinkedHashMap, .put)) m).run env).2.above lo) es1 =
        some (m.foldl (fun acc kv => assocPut acc kv.1 (jstring kv.2)) ys) := by
  induction m generalizing env es ys with
  | nil =>
    unfold putEach
    exact ⟨hq, es, hd, by simpa using hr⟩
  | cons kv rest ih =>
    unfold putEach
    have hd1 : (env.alloc (.JString (modifiedUtf8 (c_str kv.2)))).2.deref map = some (.LinkedHashMap es) := by
      rw [JNIEnv.deref_alloc_old (Nat.le_trans hl hlo)]
      exact hd
    have hq1 := JNIEnv.quiet_alloc hq (.JString (modifiedUtf8 (c_str kv.2)))
    simp only [JNI.run_bind_eq, NewStringUTF_quiet hq, CallVoidMethod,
      CallMethod_quiet hq1 (invoked_put hd1 _ _), JNIEnv.alloc_fst]
    have hsub : HeapView.Sub (env.above lo)
        (((env.alloc (.JString (modifiedUtf8 (c_str kv.2)))).2.store map
          (.LinkedHashMap (assocPut es kv.1 (env.heap.length + 1)))).above lo) :=
      Frame.above ((Frame.alloc map (Nat.le_refl _) _).comp
        (Frame.store _ (Or.inl rfl) _)) hl (Nat.le_refl _)
    have hs : readString (((env.alloc (.JString (modifiedUtf8 (c_str kv.2)))).2.store map
        (.LinkedHashMap (assocPut es kv.1 (env.heap.length + 1)))).above lo)
        (env.heap.length + 1) = some (modifiedUtf8 (c_str kv.2)) := by
      unfold readString
      rw [JNIEnv.above_eq (by omega), JNIEnv.deref_store_ne (by omega),
        JNIEnv.deref_alloc_new]
    obtain ⟨h1, es1, h2, h3⟩ := ih (JNIEnv.quiet_store hq1 map _) (by simp; omega)
      (JNIEnv.deref_store_self hd1 _)
      (readEntries_put (readEntries_sub hsub hr) kv.1 hs)
    exact ⟨h1, es1, h2, by simpa using h3⟩

theorem constructed_LinkedHashMap :
    constructed (some .java_util_LinkedHashMap) (some (.java_util_LinkedHashMap, .init)) [] =
      some (.LinkedHashMap []) := by
  simp [constructed, construct]

theorem mapToLinkedHashMap_quiet {env : JNIEnv} (hq : env.quiet) (m : std_map) :
    ((mapToLinkedHashMap m).run env).1 = env.heap.length + 1 ∧
    ((mapToLinkedHashMap m).run env).2.quiet ∧
    readMap (((mapToLinkedHashMap m).run env).2.above env.heap.length)
      (env.heap.length + 1) =
      some (m.foldl (fun acc kv => assocPut acc kv.1 (jstring kv.2)) []) := by
  unfold mapToLinkedHashMap
  simp only [JNI.run_bind_eq, FindClass_quiet hq, GetMethodID_quiet hq
    (c := .java_util_LinkedHashMap) (m := .init) rfl, GetMethodID_quiet hq
    (c := .java_util_LinkedHashMap) (m := .put) rfl,
    NewObject_quiet hq constructed_LinkedHashMap, JNI.run_pure_eq, JNIEnv.alloc_fst]
  obtain ⟨h1, es1, h2, h3⟩ := putEach_quiet (env.heap.length + 1)
    (JNIEnv.quiet_alloc hq (.LinkedHashMap [])) (Nat.le_refl _) (by simp)
    (JNIEnv.deref_alloc_new env (.LinkedHashMap []))
    (show readEntries _ [] = some [] from rfl) m
  refine ⟨trivial, h1, ?_⟩
  unfold readMap
  rw [JNIEnv.above_eq (by omega), h2]
  exact readEntries_sub (JNIEnv.above_mono _ (Nat.le_succ env.heap.length)) h3

theorem quiet_step {α : Type} {Q : α → Prop} {L list : Nat} {acc : List jobject} {e : JNIEnv}
    (hd : e.deref list = some (.ArrayList acc)) (hL : L ≤ e.heap.length) (m : JNI α)
    (hsafe : JNI.Safe 0 e.heap.length m Q) :
    (m.run e).2.deref list = some (.ArrayList acc) ∧ L ≤ (m.run e).2.heap.length ∧
      HeapView.Sub (e.above L) ((m.run e).2.above L) := by
  obtain ⟨hfr, _⟩ := hsafe e (Nat.le_refl _)
  refine ⟨?_, Nat.le_trans hL hfr.1, Frame.above hfr (Nat.zero_le _) (Nat.le_refl _)⟩
  rw [hfr.2 list (JNIEnv.le_of_deref hd) (JNIEnv.ne_zero_of_deref hd)]
  exact hd

theorem NewStringUTF_quiet_spec {env : JNIEnv} (hq : env.quiet) (bytes : List Nat) :
    ((NewStringUTF bytes).run env).1 = env.heap.length + 1 ∧
    ((NewStringUTF bytes).run env).2.quiet ∧
    readString (((NewStringUTF bytes).run env).2.above env.heap.length)
      (env.heap.length + 1) = some (modifiedUtf8 bytes) := by
  rw [NewStringUTF_quiet hq]
  refine ⟨rfl, JNIEnv.quiet_alloc hq _, ?_⟩
  unfold readString
  rw [JNIEnv.above_eq (by omega), JNIEnv.deref_alloc_new]

theorem vectorToArrayList_quiet_spec {env : JNIEnv} (hq : env.quiet) (v : List jobject) :
    ((vectorToArrayList v).run env).1 = env.heap.length + 1 ∧
    ((vectorToArrayList v).run env).2.quiet ∧
    readList (((vectorToArrayList v).run env).2.above env.heap.length) (env.heap.length + 1) =
      some v := by
  obtain ⟨h1, h2, h3⟩ := vectorToArrayList_quiet hq v
  refine ⟨h1, h2, ?_⟩
  unfold readList
  rw [JNIEnv.above_eq (by omega), h3]

theorem constructed_CAstEntityInfo (a1 a2 a3 a4 a5 a6 a7 a8 a9 a10 a11 a12 : Nat) :
    constructed (some .CAstEntityInfo) (some (.CAstEntityInfo, .init_CAstEntityInfo))
      [.l a1, .l a2, .l a3, .l a4, .l a5, .l a6, .l a7, .l a8, .l a9, .l a10, .l a11, .l a12] =
      some (.CAstEntityInfo a1 a2 a3 a4 a5 a6 a7 a8 a9 a10 a11 a12) := by
  simp [constructed, construct]

theorem getCAstEntityInfo_round_quiet {env : JNIEnv} (hq : env.quiet) {list L : Nat}
    (hlist : list ≤ L) (hL : L ≤ env.heap.length)
    {acc : List jobject} (hd : env.deref list = some (.ArrayList acc)) (info : CAstEntityInfo) :
    ∃ env1 rec, (getCAstEntityInfo.round list (some (.java_util_ArrayList, .add)) info).run env =
        (some (), env1) ∧ env1.quiet ∧ L < rec ∧
      env1.deref list = some (.ArrayList (acc ++ [rec])) ∧
      HeapView.Sub (env.above L) (env1.above L) ∧
      readEntity (env1.above L) rec = some info.materialized := by
  unfold getCAstEntityInfo.round
  rw [TryBlock.run_checked _ _ _ (by rw [FindClass_quiet hq]; exact hq), FindClass_quiet hq]
  dsimp only
  rw [TryBlock.run_checked _ _ _ (by rw [GetMethodID_quiet hq (c := .CAstEntityInfo)
    (m := .init_CAstEntityInfo) rfl]; exact hq),
    GetMethodID_quiet hq (c := .CAstEntityInfo) (m := .init_CAstEntityInfo) rfl]
  dsimp only
  obtain ⟨hr1, hq1, hF1⟩ := NewStringUTF_quiet_spec hq (c_str info.functionName)
  obtain ⟨hd1, hL1, hs1⟩ := quiet_step hd hL _ (NewStringUTF_safe 0 _ (c_str info.functionName))
  replace hF1 := readString_sub (JNIEnv.above_mono _ hL) hF1
  have hlt1 : L < env.heap.length + 1 := by omega
  rw [TryBlock.run_checked _ _ _ hq1, hr1]
  generalize ((NewStringUTF (c_str info.functionName)).run env).2 = e1 at hq1 hF1 hd1 hL1 hs1 ⊢
  generalize env.heap.length + 1 = r1 at hF1 hlt1 ⊢
  clear hr1
  obtain ⟨hr2, hq2, hF2⟩ := vectorToArrayList_quiet_spec hq1 (info.basicBlocks)
  obtain ⟨hd2, hL2, hs2⟩ := quiet_step hd1 hL1 _ (vectorToArrayList_safe 0 _ (info.basicBlocks))
  replace hF2 := readList_sub (JNIEnv.above_mono _ hL1) hF2
  have hlt2 : L < e1.heap.length + 1 := by omega
  rw [TryBlock.run_checked _ _ _ hq2, hr2]
  generalize ((vectorToArrayList info.basicBlocks).run e1).2 = e2 at hq2 hF2 hd2 hL2 hs2 ⊢
  generalize e1.heap.length + 1 = r2 at hF2 hlt2 ⊢
  clear hr2
  obtain ⟨hr3, hq3, hF3⟩ := vectorToArrayList_quiet_spec hq2 (info.callNodes)
  obtain ⟨hd3, hL3, hs3⟩ := quiet_step hd2 hL2 _ (vectorToArrayList_safe 0 _ (info.callNodes))
  replace hF3 := readList_sub (JNIEnv.above_mono _ hL2) hF3
  have hlt3 : L < e2.heap.length + 1 := by omega
  rw [TryBlock.run_checked _ _ _ hq3, hr3]
  generalize ((vectorToArrayList info.callNodes).run e2).2 = e3 at hq3 hF3 hd3 hL3 hs3 ⊢
  generalize e2.heap.length + 1 = r3 at hF3 hlt3 ⊢
  clear hr3
  obtain ⟨hr4, hq4, hF4⟩ := vectorToArrayList_quiet_spec hq3 (info.cfNodes)
  obtain ⟨hd4, hL4, hs4⟩ := quiet_step hd3 hL3 _ (vectorToArrayList_safe 0 _ (info.cfNodes))
  replace hF4 := readList_sub (JNIEnv.above_mono _ hL3) hF4
  have hlt4 : L < e3.heap.length + 1 := by omega
  rw [TryBlock.run_checked _ _ _ hq4, hr4]
  generalize ((vectorToArrayList info.cfNodes).run e3).2 = e4 at hq4 hF4 hd4 hL4 hs4 ⊢
  generalize e3.heap.length + 1 = r4 at hF4 hlt4 ⊢
  clear hr4
  obtain ⟨hr5, hq5, hF5⟩ := NewStringUTF_quiet_spec hq4 (c_str info.returnType)
  obtain ⟨hd5, hL5, hs5⟩ := quiet_step hd4 hL4 _ (NewStringUTF_safe 0 _ (c_str info.returnType))
  replace hF5 := readString_sub (JNIEnv.above_mono _ hL4) hF5
  have hlt5 : L < e4.heap.length + 1 := by omega
  rw [TryBlock.run_checked _ _ _ hq5, hr5]
  generalize ((NewStringUTF (c_str info.returnType)).run e4).2 = e5 at hq5 hF5 hd5 hL5 hs5 ⊢
  generalize e4.heap.length + 1 = r5 at hF5 hlt5 ⊢
  clear hr5
  obtain ⟨hr6, hq6, hF6⟩ := getArgumentTypesOfEntityInfo_quiet hq5 (info.argumentTypes)
  obtain ⟨hd6, hL6, hs6⟩ := quiet_step hd5 hL5 _ (getArgumentTypesOfEntityInfo_safe 0 _ (info.argumentTypes))
  replace hF6 := readStrings_sub (JNIEnv.above_mono _ hL5) hF6
  have hlt6 : L < e5.heap.length + 1 := by omega
  rw [TryBlock.run_checked _ _ _ hq6, hr6]
  generalize ((getArgumentTypesOfEntityInfo info.argumentTypes).run e5).2 = e6 at hq6 hF6 hd6 hL6 hs6 ⊢
  generalize e5.heap.length + 1 = r6 at hF6 hlt6 ⊢
  clear hr6
  obtain ⟨hr7, hq7, hF7⟩ := getArgumentTypesOfEntityInfo_quiet hq6 (info.argumentNames)
  obtain ⟨hd7, hL7, hs7⟩ := quiet_step hd6 hL6 _ (getArgumentTypesOfEntityInfo_safe 0 _ (info.argumentNames))
  replace hF7 := readStrings_sub (JNIEnv.above_mono _ hL6) hF7
  have hlt7 : L < e6.heap.length + 1 := by omega
  rw [TryBlock.run_checked _ _ _ hq7, hr7]
  generalize ((getArgumentTypesOfEntityInfo info.argumentNames).run e6).2 = e7 at hq7 hF7 hd7 hL7 hs7 ⊢
  generalize e6.heap.length + 1 = r7 at hF7 hlt7 ⊢
  clear hr7
  obtain ⟨hr8, hq8, hF8⟩ := mapToLinkedHashMap_quiet hq7 (info.variableTypes)
  obtain ⟨hd8, hL8, hs8⟩ := quiet_step hd7 hL7 _ (mapToLinkedHashMap_safe 0 _ (info.variableTypes))
  replace hF8 := readMap_sub (JNIEnv.above_mono _ hL7) hF8
  have hlt8 : L < e7.heap.length + 1 := by omega
  rw [TryBlock.run_checked _ _ _ hq8, hr8]
  generalize ((mapToLinkedHashMap info.variableTypes).run e7).2 = e8 at hq8 hF8 hd8 hL8 hs8 ⊢
  generalize e7.heap.length + 1 = r8 at hF8 hlt8 ⊢
  clear hr8
  obtain ⟨hr9, hq9, hF9⟩ := vectorToArrayList_quiet_spec hq8 (info.declNodes)
  obtain ⟨hd9, hL9, hs9⟩ := quiet_step hd8 hL8 _ (vectorToArrayList_safe 0 _ (info.declNodes))
  replace hF9 := readList_sub (JNIEnv.above_mono _ hL8) hF9
  have hlt9 : L < e8.heap.length + 1 := by omega
  rw [TryBlock.run_checked _ _ _ hq9, hr9]
  generalize ((vectorToArrayList info.declNodes).run e8).2 = e9 at hq9 hF9 hd9 hL9 hs9 ⊢
  generalize e8.heap.length + 1 = r9 at hF9 hlt9 ⊢
  clear hr9
  obtain ⟨hr10, hq10, hF10⟩ := vectorToArrayList_quiet_spec hq9 (info.argumentPositions)
  obtain ⟨hd10, hL10, hs10⟩ := quiet_step hd9 hL9 _ (vectorToArrayList_safe 0 _ (info.argumentPositions))
  replace hF10 := readList_sub (JNIEnv.above_mono _ hL9) hF10
  have hlt10 : L < e9.heap.length + 1 := by omega
  rw [TryBlock.run_checked _ _ _ hq10, hr10]
  generalize ((vectorToArrayList info.argumentPositions).run e9).2 = e10 at hq10 hF10 hd10 hL10 hs10 ⊢
  generalize e9.heap.length + 1 = r10 at hF10 hlt10 ⊢
  clear hr10
  rw [TryBlock.run_lift_bind,
    NewObject_quiet hq10 (constructed_CAstEntityInfo _ _ _ _ _ _ _ _ _ _ _ _)]
  simp only [JNIEnv.alloc_fst]
  have hq11 := JNIEnv.quiet_alloc hq10 (.CAstEntityInfo r1 r2 r3 r4 r5 r6 r7 r8
    info.CAstSourcePositionRecorder r9 info.functionPosition r10)
  have hd11 : (e10.alloc (.CAstEntityInfo r1 r2 r3 r4 r5 r6 r7 r8
      info.CAstSourcePositionRecorder r9 info.functionPosition r10)).2.deref list =
      some (.ArrayList acc) := by
    rw [JNIEnv.deref_alloc_old (JNIEnv.le_of_deref hd10)]
    exact hd10
  rw [TryBlock.run_lift_bind, CallBooleanMethod, CallMethod_quiet hq11 (invoked_add hd11 _),
    TryBlock.run_pure_some]
  have hsF : HeapView.Sub (e10.above L)
      (((e10.alloc (.CAstEntityInfo r1 r2 r3 r4 r5 r6 r7 r8
        info.CAstSourcePositionRecorder r9 info.functionPosition r10)).2.store list
        (.ArrayList (acc ++ [e10.heap.length + 1]))).above L) :=
    Frame.above ((Frame.alloc list (Nat.le_refl _) _).comp (Frame.store _ (Or.inl rfl) _))
      hlist (Nat.le_refl _)
  have hs9F := hs10.trans hsF
  have hs8F := hs9.trans hs9F
  have hs7F := hs8.trans hs8F
  have hs6F := hs7.trans hs7F
  have hs5F := hs6.trans hs6F
  have hs4F := hs5.trans hs5F
  have hs3F := hs4.trans hs4F
  have hs2F := hs3.trans hs3F
  have hs1F := hs2.trans hs2F
  have hs0F := hs1.trans hs1F
  refine ⟨_, e10.heap.length + 1, rfl, JNIEnv.quiet_store hq11 _ _, by omega,
    JNIEnv.deref_store_self hd11 _, hs0F, ?_⟩
  unfold readEntity
  rw [JNIEnv.above_eq (by omega), JNIEnv.deref_store_ne (by omega), JNIEnv.deref_alloc_new]
  dsimp only
  rw [readString_sub hs1F hF1, readList_sub hs2F hF2, readList_sub hs3F hF3,
    readList_sub hs4F hF4, readString_sub hs5F hF5, readStrings_sub hs6F hF6,
    readStrings_sub hs7F hF7, readMap_sub hs8F hF8, readList_sub hs9F hF9,
    readList_sub hsF hF10]
  rfl

theorem getCAstEntityInfo_loop_quiet {env : JNIEnv} (hq : env.quiet) {list L : Nat}
    (hlist : list ≤ L) (hL : L ≤ env.heap.length) {acc : List jobject}
    (hd : env.deref list = some (.ArrayList acc)) {ms : List MaterializedEntity}
    (hr : readAll (readEntity (env.above L)) acc = some ms) (es : List CAstEntityInfo) :
    ∃ env1 acc1, (getCAstEntityInfo.loop list (some (.java_util_ArrayList, .add)) es).run env =
        (some (), env1) ∧ env1.quiet ∧ env1.deref list = some (.ArrayList acc1) ∧
      readAll (readEntity (env1.above L)) acc1 =
        some (ms ++ es.map CAstEntityInfo.materialized) := by
  induction es generalizing env acc ms with
  | nil =>
    unfold getCAstEntityInfo.loop
    exact ⟨env, acc, rfl, hq, hd, by simpa using hr⟩
  | cons e rest ih =>
    unfold getCAstEntityInfo.loop
    obtain ⟨env1, rec, hrun, hq1, _, hd1, hsub, hrec⟩ :=
      getCAstEntityInfo_round_quiet hq hlist hL hd e
    have hlen : env.heap.length ≤ env1.heap.length := by
      have := (getCAstEntityInfo_round_safe (Or.inl (Eq.refl list))
        (some (.java_util_ArrayList, .add)) e env (Nat.zero_le _)).1.1
      rw [hrun] at this
      exact this
    obtain ⟨env2, acc2, hrun2, hq2, hd2, hr2⟩ := ih hq1 (Nat.le_trans hL hlen) hd1
      (readAll_append (readAll_sub (fun _ _ => readEntity_sub hsub) hr) hrec)
    refine ⟨env2, acc2, ?_, hq2, hd2, by simpa using hr2⟩
    rw [TryBlock.run_bind_match, hrun]
    exact hrun2

theorem getCAstEntityInfo_body_quiet {env : JNIEnv} (hq : env.quiet)
    (es : List CAstEntityInfo) :
    ∃ env1, (getCAstEntityInfo.body es).run env = (some (env.heap.length + 1), env1) ∧
      env1.quiet ∧
      readEntities env1.deref (env.heap.length + 1) =
        some (es.map CAstEntityInfo.materialized) := by
  unfold getCAstEntityInfo.body
  rw [TryBlock.run_checked _ _ _ (by rw [FindClass_quiet hq]; exact hq), FindClass_quiet hq]
  dsimp only
  have hg := GetMethodID_quiet hq (c := .java_util_ArrayList) (m := .init_I) rfl
  rw [TryBlock.run_checked _ _ _ (by rw [hg]; exact hq), hg]
  dsimp only
  rw [TryBlock.run_lift_bind, GetMethodID_quiet hq (c := .java_util_ArrayList) (m := .add) rfl]
  dsimp only
  rw [TryBlock.run_lift_bind, NewObject_quiet hq (constructed_ArrayList es.length)]
  simp only [JNIEnv.alloc_fst]
  obtain ⟨env1, acc1, hrun, hq1, hd1, hr1⟩ := getCAstEntityInfo_loop_quiet
    (JNIEnv.quiet_alloc hq (.ArrayList [])) (Nat.le_refl (env.heap.length + 1)) (by simp)
    (JNIEnv.deref_alloc_new env (.ArrayList []))
    (show readAll _ [] = some [] from rfl) es
  refine ⟨env1, ?_, hq1, ?_⟩
  · rw [TryBlock.run_bind_match, hrun]
    rfl
  · unfold readEntities readList
    rw [hd1]
    exact readAll_sub (fun _ _ => readEntity_sub (JNIEnv.above_sub_deref _ _))
      (by simpa using hr1)

theorem WALAInstance.getCAstEntityInfo_quiet (s : WALAInstance) (hq : s.JavaEnv.quiet) :
    s.getCAstEntityInfo.1 = some (s.JavaEnv.heap.length + 1) ∧
      s.getCAstEntityInfo.2.JavaEnv.quiet ∧
      s.getCAstEntityInfo.2.JavaEnv.readEntities (s.JavaEnv.heap.length + 1) =
        some (s.castEntities.map CAstEntityInfo.materialized) := by
  obtain ⟨env1, hrun, hq1, hr⟩ := getCAstEntityInfo_body_quiet hq s.castEntities
  unfold WALAInstance.getCAstEntityInfo JNIEnv.readEntities
  simp only [hrun]
  exact ⟨trivial, hq1, hr⟩

theorem WALAInstance.recordAll_castEntities (s : WALAInstance) (es : List CAstEntityInfo) :
    (s.recordAll es).castEntities = s.castEntities ++ es := by
  induction es generalizing s with
  | nil => simp [WALAInstance.recordAll]
  | cons e rest ih =>
    have := ih (s.addCAstEntityInfo e)
    simp only [WALAInstance.recordAll, List.foldl_cons] at this ⊢
    rw [this]
    simp [WALAInstance.addCAstEntityInfo]

theorem WALAInstance.recordAll_JavaEnv (s : WALAInstance) (es : List CAstEntityInfo) :
    (s.recordAll es).JavaEnv = s.JavaEnv := by
  induction es generalizing s with
  | nil => rfl
  | cons e rest ih =>
    have := ih (s.addCAstEntityInfo e)
    simp only [WALAInstance.recordAll, List.foldl_cons] at this ⊢
    rw [this]
    rfl

/-! ## Strings on their way to Java -/

theorem Utf8Pending.first_single {b : Nat} (h : b < 0xC0 ∨ 0xF0 ≤ b) :
    Utf8Pending.first b = ([b], .nothing) := by
  unfold Utf8Pending.first
  rw [if_neg (by omega), if_neg (by omega)]

theorem Utf8Pending.first_two {b : Nat} (h : 0xC0 ≤ b ∧ b < 0xE0) :
    Utf8Pending.first b = ([], .two b) := by
  unfold Utf8Pending.first
  rw [if_pos h]

theorem Utf8Pending.first_three {b : Nat} (h : 0xE0 ≤ b ∧ b < 0xF0) :
    Utf8Pending.first b = ([], .three b) := by
  unfold Utf8Pending.first
  rw [if_neg (by omega), if_pos h]

theorem continuation_iff (b : Nat) : continuation b = true ↔ 0x80 ≤ b ∧ b < 0xC0 := by
  simp [continuation]

theorem Utf8Pending.decode_cons (p : Utf8Pending) (b : Nat) (rest : List Nat) :
    Utf8Pending.decode p (b :: rest) = (p.next b).1 ++ Utf8Pending.decode (p.next b).2 rest := rfl

theorem Utf8Pending.next_nothing (b : Nat) : Utf8Pending.next .nothing b = Utf8Pending.first b := rfl

theorem Utf8Pending.next_two {b : Nat} (h : continuation b = true) (b0 : Nat) :
    Utf8Pending.next (.two b0) b = ([(b0 - 0xC0) * 64 + (b - 0x80)], .nothing) := by
  show (if continuation b = true then _ else _) = _
  rw [if_pos h]

theorem Utf8Pending.next_three {b : Nat} (h : continuation b = true) (b0 : Nat) :
    Utf8Pending.next (.three b0) b = ([], .three2 b0 b) := by
  show (if continuation b = true then _ else _) = _
  rw [if_pos h]

theorem Utf8Pending.next_three2 {b : Nat} (h : continuation b = true) (b0 b1 : Nat) :
    Utf8Pending.next (.three2 b0 b1) b =
      ([(b0 - 0xE0) * 4096 + (b1 - 0x80) * 64 + (b - 0x80)], .nothing) := by
  show (if continuation b = true then _ else _) = _
  rw [if_pos h]

theorem decode_two {b0 b1 : Nat} (h0 : 0xC0 ≤ b0 ∧ b0 < 0xE0) (h1 : 0x80 ≤ b1 ∧ b1 < 0xC0)
    (rest : List Nat) :
    Utf8Pending.decode .nothing (b0 :: b1 :: rest) =
      ((b0 - 0xC0) * 64 + (b1 - 0x80)) :: Utf8Pending.decode .nothing rest := by
  rw [Utf8Pending.decode_cons, Utf8Pending.next_nothing, Utf8Pending.first_two h0, Utf8Pending.decode_cons,
    Utf8Pending.next_two ((continuation_iff b1).2 h1)]
  rfl

theorem decode_three {b0 b1 b2 : Nat} (h0 : 0xE0 ≤ b0 ∧ b0 < 0xF0)
    (h1 : 0x80 ≤ b1 ∧ b1 < 0xC0) (h2 : 0x80 ≤ b2 ∧ b2 < 0xC0) (rest : List Nat) :
    Utf8Pending.decode .nothing (b0 :: b1 :: b2 :: rest) =
      ((b0 - 0xE0) * 4096 + (b1 - 0x80) * 64 + (b2 - 0x80)) ::
        Utf8Pending.decode .nothing rest := by
  rw [Utf8Pending.decode_cons, Utf8Pending.next_nothing, Utf8Pending.first_three h0, Utf8Pending.decode_cons,
    Utf8Pending.next_three ((continuation_iff b1).2 h1), Utf8Pending.decode_cons,
    Utf8Pending.next_three2 ((continuation_iff b2).2 h2)]
  rfl

theorem decode_utf8Char (c : Char) (h : c.toNat < 0x10000) (rest : List Nat) :
    Utf8Pending.decode .nothing (utf8Char c ++ rest) = c.toNat :: Utf8Pending.decode .nothing rest := by
  unfold utf8Char
  generalize c.toNat = v at h ⊢
  by_cases h1 : v < 0x80
  · rw [if_pos h1, List.singleton_append, Utf8Pending.decode_cons, Utf8Pending.next_nothing,
      Utf8Pending.first_single (by omega)]
    rfl
  · rw [if_neg h1]
    by_cases h2 : v < 0x800
    · rw [if_pos h2]
      simp only [List.cons_append, List.nil_append]
      have e : (0xC0 + v / 64 - 0xC0) * 64 + (0x80 + v % 64 - 0x80) = v := by omega
      rw [decode_two (by omega) (by omega), e]
    · rw [if_neg h2, if_pos h]
      simp only [List.cons_append, List.nil_append]
      have e : (0xE0 + v / 4096 - 0xE0) * 4096 + (0x80 + v / 64 % 64 - 0x80) * 64 +
          (0x80 + v % 64 - 0x80) = v := by omega
      rw [decode_three (by omega) (by omega) (by omega), e]

theorem utf8Char_ne_zero {c : Char} (h : c.toNat ≠ 0) : ∀ b ∈ utf8Char c, b ≠ 0 := by
  unfold utf8Char
  intro b hb
  split at hb
  · simp only [List.mem_singleton] at hb
    omega
  · split at hb
    · simp only [List.mem_cons, List.mem_singleton, List.not_mem_nil, or_false] at hb
      omega
    · split at hb
      · simp only [List.mem_cons, List.mem_singleton, List.not_mem_nil, or_false] at hb
        omega
      · simp only [List.mem_cons, List.mem_singleton, List.not_mem_nil, or_false] at hb
        omega

theorem takeWhile_of_all {α : Type} (p : α → Bool) (l : List α) (h : ∀ a ∈ l, p a = true) :
    l.takeWhile p = l := by
  induction l with
  | nil => rfl
  | cons a rest ih =>
    rw [List.takeWhile_cons, h a (List.mem_cons_self _ _),
      ih (fun b hb => h b (List.mem_cons_of_mem _ hb))]
    rfl

theorem utf8_ne_zero {s : std_string} (h : plain s) : ∀ b ∈ utf8 s, b ≠ 0 := by
  induction s with
  | nil => intro b hb; cases hb
  | cons c rest ih =>
    intro b hb
    unfold utf8 at hb
    rcases List.mem_append.1 hb with hb | hb
    · exact utf8Char_ne_zero (h c (List.mem_cons_self _ _)).1 b hb
    · exact ih (fun d hd => h d (List.mem_cons_of_mem _ hd)) b hb

theorem decode_utf8 {s : std_string} (h : ∀ c ∈ s, c.toNat < 0x10000) :
    Utf8Pending.decode .nothing (utf8 s) = utf16 s := by
  induction s with
  | nil => rfl
  | cons c rest ih =>
    have hc := h c (List.mem_cons_self _ _)
    unfold utf8 utf16
    rw [decode_utf8Char c hc, ih (fun d hd => h d (List.mem_cons_of_mem _ hd))]
    unfold utf16Char
    rw [if_pos hc]
    rfl

theorem jstring_of_plain {s : std_string} (h : plain s) : jstring s = utf16 s := by
  unfold jstring c_str modifiedUtf8
  rw [takeWhile_of_all _ _ (fun b hb => by simpa using utf8_ne_zero h b hb)]
  exact decode_utf8 (fun c hc => (h c hc).2)


theorem map_jstring_of_plain {ss : List std_string} (h : ∀ s ∈ ss, plain s) :
    ss.map jstring = ss.map utf16 := by
  induction ss with
  | nil => rfl
  | cons s rest ih =>
    rw [List.map_cons, List.map_cons, jstring_of_plain (h s (List.mem_cons_self _ _)),
      ih (fun t ht => h t (List.mem_cons_of_mem _ ht))]

theorem CAstEntityInfo.materialized_builtFrom {e : CAstEntityInfo} (h : e.plain) :
    e.materialized.builtFrom e := by
  obtain ⟨h1, h2, h3, h4⟩ := h
  exact ⟨jstring_of_plain h1, rfl, rfl, rfl, jstring_of_plain h2, map_jstring_of_plain h3,
    map_jstring_of_plain h4, rfl, rfl, rfl, rfl⟩

theorem forall₂_materialized {es : List CAstEntityInfo} (h : ∀ e ∈ es, e.plain) :
    List.Forall₂ MaterializedEntity.builtFrom (es.map CAstEntityInfo.materialized) es := by
  induction es with
  | nil => exact List.Forall₂.nil
  | cons e rest ih =>
    exact List.Forall₂.cons (CAstEntityInfo.materialized_builtFrom (h e (List.mem_cons_self _ _)))
      (ih (fun t ht => h t (List.mem_cons_of_mem _ ht)))

/-! ## The records `getCAstEntityInfo` returns -/

theorem not_records_of_name {e : CAstEntityInfo} {r : jobject} {m : MaterializedEntity}
    (h1 : (Example.session.recordAll [e]).getCAstEntityInfo.1 = some r)
    (h2 : (Example.session.recordAll [e]).getCAstEntityInfo.2.JavaEnv.readEntities r =
      some [m])
    (hne : m.functionName ≠ utf16 e.functionName) :
    ¬ ∃ r ms, (Example.session.recordAll [e]).getCAstEntityInfo.1 = some r ∧
      (Example.session.recordAll [e]).getCAstEntityInfo.2.JavaEnv.readEntities r = some ms ∧
      ms.length = [e].length ∧ List.Forall₂ MaterializedEntity.builtFrom ms [e] := by
  rintro ⟨r1, ms, g1, g2, -, g4⟩
  rw [h1] at g1
  cases g1
  rw [h2] at g2
  cases g2
  cases g4 with
  | cons hb _ => exact hne hb.1

theorem WALAInstance.recorderLive_iff (s : WALAInstance) :
    s.recorderLive ↔ ∃ ps, s.JavaEnv.deref s.CurrentCAstSourcePositionRecorder =
      some (.CAstSourcePositionRecorder ps) := by
  unfold WALAInstance.recorderLive JNIEnv.recorderPositions
  constructor
  · intro h
    split at h
    · rename_i ps heq
      exact ⟨ps, heq⟩
    · exact absurd h (by simp)
  · rintro ⟨ps, hps⟩
    rw [hps]
    rfl

theorem assocGet_assocPut {β : Type} (es : List (jobject × β)) (k : Nat) (v : β) :
    assocGet (assocPut es k v) k = some v := by
  induction es with
  | nil => simp [assocPut, assocGet]
  | cons x rest ih =>
    obtain ⟨k1, v1⟩ := x
    unfold assocPut
    by_cases h : k1 = k
    · simp [h, assocGet]
    · simp [h, assocGet, ih]

theorem constructed_Recorder :
    constructed (some .CAstSourcePositionRecorder) (some (.CAstSourcePositionRecorder, .init))
      [] = some (.CAstSourcePositionRecorder []) := by
  simp [constructed, construct]

theorem createCAstSourcePositionRecorder_body_quiet {env : JNIEnv} (hq : env.quiet) :
    createCAstSourcePositionRecorder.body.run env =
      (some (env.heap.length + 1), (env.alloc (.CAstSourcePositionRecorder [])).2) := by
  unfold createCAstSourcePositionRecorder.body
  rw [TryBlock.run_checked _ _ _ (by rw [FindClass_quiet hq]; exact hq), FindClass_quiet hq]
  dsimp only
  have hg := GetMethodID_quiet hq (c := .CAstSourcePositionRecorder) (m := .init) rfl
  rw [TryBlock.run_checked _ _ _ (by rw [hg]; exact hq), hg]
  dsimp only
  have hn := NewObject_quiet hq constructed_Recorder
  rw [TryBlock.run_checked _ _ _ (by rw [hn]; exact JNIEnv.quiet_alloc hq _), hn]
  rfl

theorem WALAInstance.createCAstSourcePositionRecorder_quiet (s : WALAInstance)
    (hq : s.JavaEnv.quiet) :
    s.createCAstSourcePositionRecorder =
      { s with JavaEnv := (s.JavaEnv.alloc (.CAstSourcePositionRecorder [])).2,
               CurrentCAstSourcePositionRecorder := s.JavaEnv.heap.length + 1 } := by
  unfold WALAInstance.createCAstSourcePositionRecorder
  simp only [createCAstSourcePositionRecorder_body_quiet hq]

theorem addSourceInfo_location_quiet {env : JNIEnv} (hq : env.quiet) {cur : Nat}
    {ps : List (jobject × jobject)}
    (hd : env.deref cur = some (.CAstSourcePositionRecorder ps)) (node : Nat)
    (fl fc ll lc : jint) :
    ((liftM (makeLocation fl fc ll lc) : TryBlock jobject) >>= fun location =>
        (liftM (CallVoidMethod cur (some (.CAstSourcePositionRecorder, .setPosition))
          [.l node, .l location]) : TryBlock Unit) >>= fun _ => THROW_ANY_EXCEPTION).run env =
      (some (), (env.alloc (.Position fl fc ll lc)).2.store cur
        (.CAstSourcePositionRecorder (assocPut ps node (env.heap.length + 1)))) := by
  have hd1 : (env.alloc (.Position fl fc ll lc)).2.deref cur =
      some (.CAstSourcePositionRecorder ps) := by
    rw [JNIEnv.deref_alloc_old (JNIEnv.le_of_deref hd)]
    exact hd
  have hq1 := JNIEnv.quiet_alloc hq (.Position fl fc ll lc)
  rw [TryBlock.run_lift_bind, makeLocation_quiet hq, TryBlock.run_lift_bind]
  simp only [JNIEnv.alloc_fst, CallVoidMethod,
    CallMethod_quiet hq1 (invoked_setPosition hd1 _ _)]
  exact THROW_ANY_EXCEPTION_quiet (JNIEnv.quiet_store hq1 _ _)

theorem addSourceInfo_body_lookups_quiet {env : JNIEnv} (hq : env.quiet) (cur node : Nat)
    (info : InstrInfo) :
    (addSourceInfo.body cur node info).run env =
      (match info.srcType with
        | .INVALID => (pure () : TryBlock Unit)
        | .FULL =>
          (liftM (makeLocation info.startLine info.startCol info.endLine info.endCol) :
            TryBlock jobject) >>= fun location =>
          (liftM (CallVoidMethod cur (some (.CAstSourcePositionRecorder, .setPosition))
            [.l node, .l location]) : TryBlock Unit) >>= fun _ => THROW_ANY_EXCEPTION
        | .STARTONLY =>
          (liftM (makeLocation info.startLine info.startCol info.startLine info.startCol) :
            TryBlock jobject) >>= fun location =>
          (liftM (CallVoidMethod cur (some (.CAstSourcePositionRecorder, .setPosition))
            [.l node, .l location]) : TryBlock Unit) >>= fun _ => THROW_ANY_EXCEPTION).run
        env := by
  unfold addSourceInfo.body
  rw [TryBlock.run_checked _ _ _ (by rw [FindClass_quiet hq]; exact hq), FindClass_quiet hq]
  dsimp only
  have hg := GetMethodID_quiet hq (c := .CAstSourcePositionRecorder) (m := .setPosition) rfl
  rw [TryBlock.run_checked _ _ _ (by rw [hg]; exact hq), hg]

theorem WALAInstance.addSourceInfo_quiet (s : WALAInstance) (hq : s.JavaEnv.quiet)
    {ps : List (jobject × jobject)}
    (hd : s.JavaEnv.deref s.CurrentCAstSourcePositionRecorder =
      some (.CAstSourcePositionRecorder ps)) (node : Nat) (info : InstrInfo) :
    s.addSourceInfo node info =
      match info.srcType with
      | .INVALID => s
      | .FULL =>
        { s with
          JavaEnv := (s.JavaEnv.alloc
            (.Position info.startLine info.startCol info.endLine info.endCol)).2.store
              s.CurrentCAstSourcePositionRecorder
              (.CAstSourcePositionRecorder (assocPut ps node (s.JavaEnv.heap.length + 1))) }
      | .STARTONLY =>
        { s with
          JavaEnv := (s.JavaEnv.alloc
            (.Position info.startLine info.startCol info.startLine info.startCol)).2.store
              s.CurrentCAstSourcePositionRecorder
              (.CAstSourcePositionRecorder (assocPut ps node (s.JavaEnv.heap.length + 1))) } := by
  unfold WALAInstance.addSourceInfo
  rw [addSourceInfo_body_lookups_quiet hq]
  cases info.srcType with
  | INVALID => rfl
  | FULL =>
    dsimp only
    rw [addSourceInfo_location_quiet hq hd]
  | STARTONLY =>
    dsimp only
    rw [addSourceInfo_location_quiet hq hd]

theorem getPosition_after_setPosition {env : JNIEnv} {cur : Nat}
    {ps : List (jobject × jobject)}
    (hd : env.deref cur = some (.CAstSourcePositionRecorder ps)) (node : Nat)
    (fl fc ll lc : jint) :
    ((env.alloc (.Position fl fc ll lc)).2.store cur
      (.CAstSourcePositionRecorder (assocPut ps node (env.heap.length + 1)))).getPosition
        cur node = some ⟨fl, fc, ll, lc⟩ := by
  have hle := JNIEnv.le_of_deref hd
  have hd1 : (env.alloc (.Position fl fc ll lc)).2.deref cur =
      some (.CAstSourcePositionRecorder ps) := by
    rw [JNIEnv.deref_alloc_old hle]
    exact hd
  unfold JNIEnv.getPosition
  rw [JNIEnv.deref_store_self hd1]
  dsimp only
  rw [assocGet_assocPut]
  dsimp only
  rw [JNIEnv.deref_store_ne (by omega), JNIEnv.deref_alloc_new]

/-- C5: when the JNI layer works and a recorder is active, `addSourceInfo` with
a source info of type `FULL`, start `(sl, sc)` and end `(el, ec)`, makes the
current recorder map the node to exactly the span start `(sl, sc)`, end
`(el, ec)`. -/
theorem addSourceInfo_full_span (s : WALAInstance) (node : jobject) (sl sc el ec : jint)
    (hq : s.JavaEnv.quiet) (hlive : s.recorderLive) :
    (s.addSourceInfo node ⟨.FULL, sl, sc, el, ec⟩).JavaEnv.getPosition
      (s.addSourceInfo node ⟨.FULL, sl, sc, el, ec⟩).getCurrentCAstSourcePositionRecorder node =
      some ⟨sl, sc, el, ec⟩ := by
  obtain ⟨ps, hps⟩ := (WALAInstance.recorderLive_iff s).1 hlive
  rw [WALAInstance.addSourceInfo_quiet s hq hps]
  exact getPosition_after_setPosition hps node sl sc el ec

/-- Witness of C5: the span (1,2)-(3,4) attached to node 5. -/
theorem addSourceInfo_full_span_witness :
    (Example.recording.JavaEnv.quiet ∧ Example.recording.recorderLive) ∧
    (Example.recording.addSourceInfo 5 ⟨.FULL, 1, 2, 3, 4⟩).JavaEnv.getPosition
      (Example.recording.addSourceInfo 5
        ⟨.FULL, 1, 2, 3, 4⟩).getCurrentCAstSourcePositionRecorder 5 =
      some ⟨1, 2, 3, 4⟩ :=
  ⟨⟨by decide, by decide⟩,
    addSourceInfo_full_span Example.recording 5 1 2 3 4 (by decide) (by decide)⟩

/-- C4: when the JNI layer works and a recorder is active, `addSourceInfo` with
a source info of type `STARTONLY`, start line `l` and start column `c`,
whatever its end line and end column, makes the current recorder map the node
to the span whose start and end are both `(l, c)`. -/
theorem addSourceInfo_startonly_span (s : WALAInstance) (node : jobject) (l c el ec : jint)
    (hq : s.JavaEnv.quiet) (hlive : s.recorderLive) :
    (s.addSourceInfo node ⟨.STARTONLY, l, c, el, ec⟩).JavaEnv.getPosition
      (s.addSourceInfo node ⟨.STARTONLY, l, c, el, ec⟩).getCurrentCAstSourcePositionRecorder
      node = some ⟨l, c, l, c⟩ := by
  obtain ⟨ps, hps⟩ := (WALAInstance.recorderLive_iff s).1 hlive
  rw [WALAInstance.addSourceInfo_quiet s hq hps]
  exact getPosition_after_setPosition hps node l c l c

/-- Witness of C4: the start-only span (5,6), with end fields 7 and 8, attached
to node 6. -/
theorem addSourceInfo_startonly_span_witness :
    (Example.recording.JavaEnv.quiet ∧ Example.recording.recorderLive) ∧
    (Example.recording.addSourceInfo 6 ⟨.STARTONLY, 5, 6, 7, 8⟩).JavaEnv.getPosition
      (Example.recording.addSourceInfo 6
        ⟨.STARTONLY, 5, 6, 7, 8⟩).getCurrentCAstSourcePositionRecorder 6 =
      some ⟨5, 6, 5, 6⟩ :=
  ⟨⟨by decide, by decide⟩,
    addSourceInfo_startonly_span Example.recording 6 5 6 7 8 (by decide) (by decide)⟩

/-! ## A source info of type `INVALID` -/

theorem FindClass_heap (name : JavaClass) (env : JNIEnv) :
    ((FindClass name).run env).2.heap = env.heap := by
  unfold FindClass
  dsimp only
  split <;> simp

theorem GetMethodID_heap (cls : jclass) (m : JavaMethod) (env : JNIEnv) :
    ((GetMethodID cls m).run env).2.heap = env.heap := by
  unfold GetMethodID
  dsimp only
  split
  · split
    · split <;> simp
    · simp
  · simp

theorem addSourceInfo_body_invalid_heap (cur node : Nat) (info : InstrInfo)
    (hinv : info.srcType = .INVALID) (env : JNIEnv) :
    ((addSourceInfo.body cur node info).run env).2.heap = env.heap := by
  unfold addSourceInfo.body
  rw [hinv]
  simp only [TryBlock.run_lift_bind, TryBlock.run_throw_bind, TryBlock.run_pure_some]
  split
  · exact FindClass_heap _ _
  · split
    · rw [GetMethodID_heap, FindClass_heap]
    · rw [GetMethodID_heap, FindClass_heap]

theorem addSourceInfo_body_invalid_pending (cur node : Nat) (info : InstrInfo)
    (hinv : info.srcType = .INVALID) (env : JNIEnv) (hp : env.pending = false)
    (hf : true ∉ env.faults.take 2) :
    ((addSourceInfo.body cur node info).run env).2.pending = false := by
  obtain ⟨heap, pending, faults⟩ := env
  simp only at hp
  subst hp
  unfold addSourceInfo.body
  rw [hinv]
  simp only [TryBlock.run_lift_bind, TryBlock.run_throw_bind, TryBlock.run_pure_some]
  match faults, hf with
  | [], _ => simp [FindClass, GetMethodID, JNIEnv.enter, hasMethod]
  | [f1], hf =>
    have h1 : f1 = false := by
      cases f1
      · rfl
      · exact absurd (by simp) hf
    subst h1
    simp [FindClass, GetMethodID, JNIEnv.enter, hasMethod]
  | f1 :: f2 :: rest, hf =>
    have h1 : f1 = false := by
      cases f1
      · rfl
      · exact absurd (by simp) hf
    have h2 : f2 = false := by
      cases f2
      · rfl
      · exact absurd (by simp) hf
    subst h1 h2
    simp [FindClass, GetMethodID, JNIEnv.enter, hasMethod]

theorem addSourceInfo_body_invalid_fails (cur node : Nat) (info : InstrInfo)
    (hinv : info.srcType = .INVALID) (env : JNIEnv)
    (h : env.pending = true ∨ true ∈ env.faults.take 2) :
    ((addSourceInfo.body cur node info).run env).2.pending = true := by
  obtain ⟨heap, pending, faults⟩ := env
  unfold addSourceInfo.body
  rw [hinv]
  simp only [TryBlock.run_lift_bind, TryBlock.run_throw_bind, TryBlock.run_pure_some]
  cases pending with
  | true =>
    match faults with
    | [] => simp [FindClass, GetMethodID, JNIEnv.enter, JNIEnv.raise, hasMethod]
    | f1 :: rest => simp [FindClass, GetMethodID, JNIEnv.enter, JNIEnv.raise, hasMethod]
  | false =>
    match faults, h with
    | [], h => simp at h
    | [f1], h =>
      have h1 : f1 = true := by simpa using h
      subst h1
      simp [FindClass, GetMethodID, JNIEnv.enter, JNIEnv.raise, hasMethod]
    | f1 :: f2 :: rest, h =>
      cases f1 with
      | true => simp [FindClass, GetMethodID, JNIEnv.enter, JNIEnv.raise, hasMethod]
      | false =>
        have h2 : f2 = true := by simpa using h
        subst h2
        simp [FindClass, GetMethodID, JNIEnv.enter, JNIEnv.raise, hasMethod]

/-- C6, as amended: `addSourceInfo` with a source info of type `INVALID`
returns and leaves the Java heap (so every recorder and the position recorded
for every node), the entity list, the produced-node list and the current
recorder as they are, whether or not the class and method lookups made before
the case analysis succeed; when no exception is pending and the two lookups
succeed, no Java exception is pending afterwards; when an exception is pending
at the call or one of the two lookups fails, a Java exception is pending
afterwards. -/
theorem addSourceInfo_invalid_noop (s : WALAInstance) (node : jobject) (info : InstrInfo)
    (hinv : info.srcType = .INVALID) :
    (s.addSourceInfo node info).JavaEnv.heap = s.JavaEnv.heap ∧
    (∀ r n, (s.addSourceInfo node info).JavaEnv.getPosition r n = s.JavaEnv.getPosition r n) ∧
    (s.addSourceInfo node info).castEntities = s.castEntities ∧
    (s.addSourceInfo node info).CAstNodes = s.CAstNodes ∧
    (s.addSourceInfo node info).CurrentCAstSourcePositionRecorder =
      s.CurrentCAstSourcePositionRecorder ∧
    (s.JavaEnv.pending = false → true ∉ s.JavaEnv.faults.take 2 →
      (s.addSourceInfo node info).JavaEnv.pending = false) ∧
    (s.JavaEnv.pending = true ∨ true ∈ s.JavaEnv.faults.take 2 →
      (s.addSourceInfo node info).JavaEnv.pending = true) := by
  have hh : (s.addSourceInfo node info).JavaEnv.heap = s.JavaEnv.heap :=
    addSourceInfo_body_invalid_heap _ node info hinv s.JavaEnv
  refine ⟨hh, fun r n => ?_, rfl, rfl, rfl, fun hp hf => ?_, fun hf => ?_⟩
  · unfold JNIEnv.getPosition JNIEnv.deref
    rw [hh]
  · exact addSourceInfo_body_invalid_pending _ node info hinv s.JavaEnv hp hf
  · exact addSourceInfo_body_invalid_fails _ node info hinv s.JavaEnv hf

/-- Witness of C6 as amended: an `INVALID` source info for node 5 in a session
with an active recorder, where the lookups succeed and no exception is pending
afterwards, and in a session whose class lookup throws, where the exception is
pending afterwards. -/
theorem addSourceInfo_invalid_noop_witness :
    ((Example.recording.addSourceInfo 5 ⟨.INVALID, 1, 2, 3, 4⟩).JavaEnv.heap =
      Example.recording.JavaEnv.heap ∧
    (∀ r n, (Example.recording.addSourceInfo 5 ⟨.INVALID, 1, 2, 3, 4⟩).JavaEnv.getPosition r n =
      Example.recording.JavaEnv.getPosition r n) ∧
    (Example.recording.addSourceInfo 5 ⟨.INVALID, 1, 2, 3, 4⟩).castEntities =
      Example.recording.castEntities ∧
    (Example.recording.addSourceInfo 5 ⟨.INVALID, 1, 2, 3, 4⟩).CAstNodes =
      Example.recording.CAstNodes ∧
    (Example.recording.addSourceInfo 5 ⟨.INVALID, 1, 2, 3, 4⟩).CurrentCAstSourcePositionRecorder =
      Example.recording.CurrentCAstSourcePositionRecorder ∧
    (Example.recording.addSourceInfo 5 ⟨.INVALID, 1, 2, 3, 4⟩).JavaEnv.pending = false) ∧
    (Example.lookupFails.addSourceInfo 5 ⟨.INVALID, 1, 2, 3, 4⟩).JavaEnv.heap =
      Example.lookupFails.JavaEnv.heap ∧
    (Example.lookupFails.addSourceInfo 5 ⟨.INVALID, 1, 2, 3, 4⟩).JavaEnv.pending = true :=
  ⟨⟨(addSourceInfo_invalid_noop Example.recording 5 ⟨.INVALID, 1, 2, 3, 4⟩ rfl).1,
      (addSourceInfo_invalid_noop Example.recording 5 ⟨.INVALID, 1, 2, 3, 4⟩ rfl).2.1,
      rfl, rfl, rfl,
      (addSourceInfo_invalid_noop Example.recording 5 ⟨.INVALID, 1, 2, 3, 4⟩ rfl).2.2.2.2.2.1
        (by decide) (by decide)⟩,
    (addSourceInfo_invalid_noop Example.lookupFails 5 ⟨.INVALID, 1, 2, 3, 4⟩ rfl).1,
    (addSourceInfo_invalid_noop Example.lookupFails 5 ⟨.INVALID, 1, 2, 3, 4⟩ rfl).2.2.2.2.2.2
      (Or.inr (by decide))⟩

/-- Counterexample to C6 as stated: when the class lookup made before the case
analysis throws, `addSourceInfo` with an `INVALID` source info leaves a Java
exception pending that was not pending before. -/
theorem addSourceInfo_invalid_counterexample :
    Example.lookupFails.JavaEnv.pending = false ∧
    (Example.lookupFails.addSourceInfo 5 ⟨.INVALID, 1, 2, 3, 4⟩).JavaEnv.pending = true := by
  decide

/-- C8: when the JNI layer works, after `createCAstSourcePositionRecorder` the
current recorder is a newly created object (no object of the heap before the
call) that holds no position, so no node has a position in it; it is distinct
from the recorder that was active before, whose state is left as it was, by
the call and by a later `addSourceInfo`, which writes to the new recorder. -/
theorem createCAstSourcePositionRecorder_fresh (s : WALAInstance) (hq : s.JavaEnv.quiet) :
    s.JavaEnv.deref s.createCAstSourcePositionRecorder.getCurrentCAstSourcePositionRecorder =
      none ∧
    s.createCAstSourcePositionRecorder.JavaEnv.recorderPositions
      s.createCAstSourcePositionRecorder.getCurrentCAstSourcePositionRecorder = some [] ∧
    (∀ n, s.createCAstSourcePositionRecorder.JavaEnv.getPosition
      s.createCAstSourcePositionRecorder.getCurrentCAstSourcePositionRecorder n = none) ∧
    (s.recorderLive →
      s.createCAstSourcePositionRecorder.getCurrentCAstSourcePositionRecorder ≠
        s.getCurrentCAstSourcePositionRecorder) ∧
    (∀ r o, s.JavaEnv.deref r = some o →
      s.createCAstSourcePositionRecorder.JavaEnv.deref r = some o) ∧
    (∀ n info, (s.createCAstSourcePositionRecorder.addSourceInfo n
        info).getCurrentCAstSourcePositionRecorder =
      s.createCAstSourcePositionRecorder.getCurrentCAstSourcePositionRecorder) ∧
    (∀ n info r o, s.JavaEnv.deref r = some o →
      (s.createCAstSourcePositionRecorder.addSourceInfo n info).JavaEnv.deref r = some o) := by
  have hlen : (s.JavaEnv.alloc (.CAstSourcePositionRecorder [])).2.heap.length =
      s.JavaEnv.heap.length + 1 := JNIEnv.alloc_length _ _
  rw [WALAInstance.createCAstSourcePositionRecorder_quiet s hq]
  unfold WALAInstance.getCurrentCAstSourcePositionRecorder
  dsimp only
  refine ⟨JNIEnv.deref_none_of_lt (by omega), ?_, fun n => ?_, fun hlive => ?_,
    fun r o hr => ?_, fun _ _ => rfl, fun n info r o hr => ?_⟩
  · unfold JNIEnv.recorderPositions
    rw [JNIEnv.deref_alloc_new]
  · unfold JNIEnv.getPosition
    rw [JNIEnv.deref_alloc_new]
    rfl
  · obtain ⟨ps, hps⟩ := (WALAInstance.recorderLive_iff s).1 hlive
    have hle := JNIEnv.le_of_deref hps
    intro heq
    rw [← heq] at hle
    omega
  · rw [JNIEnv.deref_alloc_old (JNIEnv.le_of_deref hr)]
    exact hr
  · have hle := JNIEnv.le_of_deref hr
    have hfr := (addSourceInfo_body_safe (s.JavaEnv.heap.length + 1) s.JavaEnv.heap.length n info
      (s.JavaEnv.alloc (.CAstSourcePositionRecorder [])).2 (by omega)).1
    unfold WALAInstance.addSourceInfo
    dsimp only
    rw [hfr.2 r hle (by omega), JNIEnv.deref_alloc_old hle]
    exact hr

/-- Witness of C8: a second `createCAstSourcePositionRecorder` on a session
whose recorder holds a position for node 5. -/
theorem createCAstSourcePositionRecorder_fresh_witness :
    ((Example.recording.addSourceInfo 5 ⟨.FULL, 1, 2, 3, 4⟩).JavaEnv.quiet ∧
      (Example.recording.addSourceInfo 5 ⟨.FULL, 1, 2, 3, 4⟩).recorderLive) ∧
    (Example.recording.addSourceInfo 5
        ⟨.FULL, 1, 2, 3, 4⟩).createCAstSourcePositionRecorder.JavaEnv.recorderPositions
      (Example.recording.addSourceInfo 5
        ⟨.FULL, 1, 2, 3, 4⟩).createCAstSourcePositionRecorder.getCurrentCAstSourcePositionRecorder
      = some [] ∧
    (Example.recording.addSourceInfo 5
        ⟨.FULL, 1, 2, 3, 4⟩).createCAstSourcePositionRecorder.getCurrentCAstSourcePositionRecorder
      ≠ (Example.recording.addSourceInfo 5
        ⟨.FULL, 1, 2, 3, 4⟩).getCurrentCAstSourcePositionRecorder :=
  ⟨⟨by decide, by decide⟩,
    (createCAstSourcePositionRecorder_fresh (Example.recording.addSourceInfo 5
      ⟨.FULL, 1, 2, 3, 4⟩) (by decide)).2.1,
    (createCAstSourcePositionRecorder_fresh (Example.recording.addSourceInfo 5
      ⟨.FULL, 1, 2, 3, 4⟩) (by decide)).2.2.2.1 (by decide)⟩

/-! ## The produced nodes -/

theorem WALAInstance.recordAll_CAstNodes (s : WALAInstance) (es : List CAstEntityInfo) :
    (s.recordAll es).CAstNodes = s.CAstNodes := by
  induction es generalizing s with
  | nil => rfl
  | cons e rest ih =>
    have := ih (s.addCAstEntityInfo e)
    simp only [WALAInstance.recordAll, List.foldl_cons] at this ⊢
    rw [this]
    rfl

/-- C7: when the JNI layer works, `getCAstNodes` returns a list whose elements
are those of `CAstNodes`, in the same order (so of the same length), and
recording entities changes neither the reference it returns nor its
elements. -/
theorem getCAstNodes_list (s : WALAInstance) (hq : s.JavaEnv.quiet) :
    s.getCAstNodes.2.JavaEnv.readList s.getCAstNodes.1 = some s.CAstNodes ∧
    ∀ es, (s.recordAll es).getCAstNodes.1 = s.getCAstNodes.1 ∧
      (s.recordAll es).getCAstNodes.2.JavaEnv.readList (s.recordAll es).getCAstNodes.1 =
        some s.CAstNodes := by
  have key : ∀ t : WALAInstance, t.JavaEnv.quiet →
      t.getCAstNodes.2.JavaEnv.readList t.getCAstNodes.1 = some t.CAstNodes := by
    intro t ht
    obtain ⟨h1, _, h3⟩ := getCAstNodes_body_quiet ht t.CAstNodes
    unfold WALAInstance.getCAstNodes JNIEnv.readList readList
    dsimp only
    rw [h1, h3]
  refine ⟨key s hq, fun es => ⟨?_, ?_⟩⟩
  · unfold WALAInstance.getCAstNodes
    dsimp only
    rw [WALAInstance.recordAll_CAstNodes, WALAInstance.recordAll_JavaEnv]
  · rw [key (s.recordAll es) (by rw [WALAInstance.recordAll_JavaEnv]; exact hq),
      WALAInstance.recordAll_CAstNodes]

/-- Witness of C7: the two produced nodes of the example session, before and
after recording "f" and "g". -/
theorem getCAstNodes_list_witness :
    Example.session.JavaEnv.quiet ∧
    Example.session.getCAstNodes.2.JavaEnv.readList Example.session.getCAstNodes.1 =
      some [31, 32] ∧
    (Example.session.recordAll [Example.f, Example.g]).getCAstNodes.2.JavaEnv.readList
      (Example.session.recordAll [Example.f, Example.g]).getCAstNodes.1 = some [31, 32] :=
  ⟨by decide, (getCAstNodes_list Example.session (by decide)).1,
    ((getCAstNodes_list Example.session (by decide)).2 [Example.f, Example.g]).2⟩
/-! ## Two calls of `getCAstEntityInfo` -/

theorem WALAInstance.recorderCall_castEntities (s : WALAInstance) (c : RecorderCall) :
    (s.recorderCall c).castEntities = s.castEntities := by
  cases c with
  | createCAstSourcePositionRecorder =>
    unfold WALAInstance.recorderCall WALAInstance.createCAstSourcePositionRecorder
    dsimp only
    split <;> rfl
  | addSourceInfo n info => rfl

theorem WALAInstance.recorderCalls_castEntities (s : WALAInstance) (calls : List RecorderCall) :
    (s.recorderCalls calls).castEntities = s.castEntities := by
  induction calls generalizing s with
  | nil => rfl
  | cons c rest ih =>
    have := ih (s.recorderCall c)
    simp only [WALAInstance.recorderCalls, List.foldl_cons] at this ⊢
    rw [this, WALAInstance.recorderCall_castEntities]

theorem WALAInstance.create_quiet_live (s : WALAInstance) (hq : s.JavaEnv.quiet) :
    s.createCAstSourcePositionRecorder.JavaEnv.quiet ∧
      s.createCAstSourcePositionRecorder.recorderLive := by
  rw [WALAInstance.createCAstSourcePositionRecorder_quiet s hq]
  refine ⟨JNIEnv.quiet_alloc hq _, (WALAInstance.recorderLive_iff _).2 ⟨[], ?_⟩⟩
  exact JNIEnv.deref_alloc_new _ _

theorem WALAInstance.recorderCall_quiet_live (s : WALAInstance) (hq : s.JavaEnv.quiet)
    (hlive : s.recorderLive) (c : RecorderCall) :
    (s.recorderCall c).JavaEnv.quiet ∧ (s.recorderCall c).recorderLive := by
  cases c with
  | createCAstSourcePositionRecorder => exact WALAInstance.create_quiet_live s hq
  | addSourceInfo n info =>
    obtain ⟨ps, hps⟩ := (WALAInstance.recorderLive_iff s).1 hlive
    have hps1 : ∀ o, (s.JavaEnv.alloc o).2.deref s.CurrentCAstSourcePositionRecorder =
        some (.CAstSourcePositionRecorder ps) := by
      intro o
      rw [JNIEnv.deref_alloc_old (JNIEnv.le_of_deref hps)]
      exact hps
    show (s.addSourceInfo n info).JavaEnv.quiet ∧ (s.addSourceInfo n info).recorderLive
    rw [WALAInstance.addSourceInfo_quiet s hq hps]
    cases info.srcType with
    | INVALID => exact ⟨hq, hlive⟩
    | FULL =>
      exact ⟨JNIEnv.quiet_store (JNIEnv.quiet_alloc hq _) _ _,
        (WALAInstance.recorderLive_iff _).2 ⟨_, JNIEnv.deref_store_self (hps1 _) _⟩⟩
    | STARTONLY =>
      exact ⟨JNIEnv.quiet_store (JNIEnv.quiet_alloc hq _) _ _,
        (WALAInstance.recorderLive_iff _).2 ⟨_, JNIEnv.deref_store_self (hps1 _) _⟩⟩

theorem WALAInstance.recorderCalls_quiet_live (s : WALAInstance) (hq : s.JavaEnv.quiet)
    (hlive : s.recorderLive) (calls : List RecorderCall) :
    (s.recorderCalls calls).JavaEnv.quiet ∧ (s.recorderCalls calls).recorderLive := by
  induction calls generalizing s with
  | nil => exact ⟨hq, hlive⟩
  | cons c rest ih =>
    obtain ⟨h1, h2⟩ := WALAInstance.recorderCall_quiet_live s hq hlive c
    exact ih (s.recorderCall c) h1 h2

theorem WALAInstance.addSourceInfo_invalid_quiet (s : WALAInstance) (hq : s.JavaEnv.quiet)
    (node : Nat) (info : InstrInfo) (hinv : info.srcType = .INVALID) :
    s.addSourceInfo node info = s := by
  unfold WALAInstance.addSourceInfo
  rw [addSourceInfo_body_lookups_quiet hq, hinv]
  rfl

theorem WALAInstance.recorderCalls_ready_quiet (s : WALAInstance) (hq : s.JavaEnv.quiet)
    (calls : List RecorderCall) (hready : recorderReady calls) :
    (s.recorderCalls calls).JavaEnv.quiet := by
  induction calls with
  | nil => exact hq
  | cons c rest ih =>
    cases c with
    | createCAstSourcePositionRecorder =>
      obtain ⟨h1, h2⟩ := WALAInstance.create_quiet_live s hq
      exact (WALAInstance.recorderCalls_quiet_live _ h1 h2 rest).1
    | addSourceInfo n info =>
      obtain ⟨hinv, hrest⟩ := hready
      show ((s.addSourceInfo n info).recorderCalls rest).JavaEnv.quiet
      rw [WALAInstance.addSourceInfo_invalid_quiet s hq n info hinv]
      exact ih hrest

theorem WALAInstance.recorderCalls_quiet (s : WALAInstance) (hq : s.JavaEnv.quiet)
    (calls : List RecorderCall) (hlive : s.recorderLive ∨ recorderReady calls) :
    (s.recorderCalls calls).JavaEnv.quiet := by
  rcases hlive with hlive | hready
  · exact (WALAInstance.recorderCalls_quiet_live s hq hlive calls).1
  · exact WALAInstance.recorderCalls_ready_quiet s hq calls hready

theorem WALAInstance.getCAstEntityInfo_keeps (s : WALAInstance) (r : Nat) (o : JavaObject)
    (hr : s.JavaEnv.deref r = some o) : s.getCAstEntityInfo.2.JavaEnv.deref r = some o := by
  have hfr := (getCAstEntityInfo_body_safe 0 s.JavaEnv.heap.length s.castEntities s.JavaEnv
    (Nat.le_refl _)).1
  unfold WALAInstance.getCAstEntityInfo
  dsimp only
  rw [hfr.2 r (JNIEnv.le_of_deref hr) (JNIEnv.ne_zero_of_deref hr)]
  exact hr

/-- C2: `getCAstEntityInfo` leaves the entity list, the produced-node list and
the current recorder of every session as they are, and every object of the
Java heap (the current recorder among them) in its state; when the JNI layer
works, two calls one after the other return lists whose records are equal
element for element, and so do two calls with any calls of
`createCAstSourcePositionRecorder` and `addSourceInfo` in between, and no
`addCAstEntityInfo`, where a position is attached only with a recorder active:
the session has an active recorder, or the calls of `addSourceInfo` before the
first `createCAstSourcePositionRecorder` have a source info of type `INVALID`. -/
theorem getCAstEntityInfo_idempotent (s : WALAInstance) :
    (s.getCAstEntityInfo.2.castEntities = s.castEntities ∧
      s.getCAstEntityInfo.2.CAstNodes = s.CAstNodes ∧
      s.getCAstEntityInfo.2.CurrentCAstSourcePositionRecorder =
        s.CurrentCAstSourcePositionRecorder ∧
      ∀ r o, s.JavaEnv.deref r = some o → s.getCAstEntityInfo.2.JavaEnv.deref r = some o) ∧
    (s.JavaEnv.quiet →
      ∃ a b ms, s.getCAstEntityInfo.1 = some a ∧
        s.getCAstEntityInfo.2.JavaEnv.readEntities a = some ms ∧
        s.getCAstEntityInfo.2.getCAstEntityInfo.1 = some b ∧
        s.getCAstEntityInfo.2.getCAstEntityInfo.2.JavaEnv.readEntities b = some ms ∧
        ms.length = s.castEntities.length) ∧
    (s.JavaEnv.quiet → ∀ calls : List RecorderCall,
      (s.recorderLive ∨ recorderReady calls) →
      ∃ a b ms, s.getCAstEntityInfo.1 = some a ∧
        s.getCAstEntityInfo.2.JavaEnv.readEntities a = some ms ∧
        (s.getCAstEntityInfo.2.recorderCalls calls).getCAstEntityInfo.1 = some b ∧
        (s.getCAstEntityInfo.2.recorderCalls calls).getCAstEntityInfo.2.JavaEnv.readEntities b =
          some ms ∧
        ms.length = s.castEntities.length) := by
  have hcalls : s.JavaEnv.quiet → ∀ calls : List RecorderCall,
      (s.recorderLive ∨ recorderReady calls) →
      ∃ a b ms, s.getCAstEntityInfo.1 = some a ∧
        s.getCAstEntityInfo.2.JavaEnv.readEntities a = some ms ∧
        (s.getCAstEntityInfo.2.recorderCalls calls).getCAstEntityInfo.1 = some b ∧
        (s.getCAstEntityInfo.2.recorderCalls calls).getCAstEntityInfo.2.JavaEnv.readEntities b =
          some ms ∧
        ms.length = s.castEntities.length := by
    intro hq calls hlive
    obtain ⟨h1, hq1, h3⟩ := WALAInstance.getCAstEntityInfo_quiet s hq
    have hlive1 : s.getCAstEntityInfo.2.recorderLive ∨ recorderReady calls := by
      rcases hlive with hl | hh
      · left
        obtain ⟨ps, hps⟩ := (WALAInstance.recorderLive_iff s).1 hl
        exact (WALAInstance.recorderLive_iff _).2
          ⟨ps, WALAInstance.getCAstEntityInfo_keeps s _ _ hps⟩
      · exact Or.inr hh
    have hq2 := WALAInstance.recorderCalls_quiet s.getCAstEntityInfo.2 hq1 calls hlive1
    obtain ⟨h4, _, h6⟩ := WALAInstance.getCAstEntityInfo_quiet _ hq2
    rw [WALAInstance.recorderCalls_castEntities] at h6
    exact ⟨_, _, _, h1, h3, h4, h6, by simp⟩
  exact ⟨⟨rfl, rfl, rfl, WALAInstance.getCAstEntityInfo_keeps s⟩,
    fun hq => hcalls hq [] (Or.inr trivial), hcalls⟩

/-- Witness of C2: two calls of `getCAstEntityInfo` on a session holding "f"
and "g" and no recorder, one after the other, and with
`createCAstSourcePositionRecorder` and two `addSourceInfo` calls in between. -/
theorem getCAstEntityInfo_idempotent_witness :
    (Example.session.recordAll [Example.f, Example.g]).JavaEnv.quiet ∧
    ¬ (Example.session.recordAll [Example.f, Example.g]).recorderLive ∧
    (∃ a b ms, (Example.session.recordAll [Example.f, Example.g]).getCAstEntityInfo.1 = some a ∧
      (Example.session.recordAll [Example.f,
        Example.g]).getCAstEntityInfo.2.JavaEnv.readEntities a = some ms ∧
      (Example.session.recordAll [Example.f,
        Example.g]).getCAstEntityInfo.2.getCAstEntityInfo.1 = some b ∧
      (Example.session.recordAll [Example.f,
        Example.g]).getCAstEntityInfo.2.getCAstEntityInfo.2.JavaEnv.readEntities b = some ms ∧
      ms.length = (Example.session.recordAll [Example.f, Example.g]).castEntities.length) ∧
    ∃ a b ms, (Example.session.recordAll [Example.f, Example.g]).getCAstEntityInfo.1 = some a ∧
      (Example.session.recordAll [Example.f,
        Example.g]).getCAstEntityInfo.2.JavaEnv.readEntities a = some ms ∧
      ((Example.session.recordAll [Example.f, Example.g]).getCAstEntityInfo.2.recorderCalls
        [.createCAstSourcePositionRecorder, .addSourceInfo 5 ⟨.FULL, 1, 2, 3, 4⟩,
          .addSourceInfo 6 ⟨.STARTONLY, 5, 6, 7, 8⟩]).getCAstEntityInfo.1 = some b ∧
      ((Example.session.recordAll [Example.f, Example.g]).getCAstEntityInfo.2.recorderCalls
        [.createCAstSourcePositionRecorder, .addSourceInfo 5 ⟨.FULL, 1, 2, 3, 4⟩,
          .addSourceInfo 6 ⟨.STARTONLY, 5, 6, 7, 8⟩]).getCAstEntityInfo.2.JavaEnv.readEntities b =
        some ms ∧
      ms.length = (Example.session.recordAll [Example.f, Example.g]).castEntities.length :=
  ⟨by decide, by decide,
    (getCAstEntityInfo_idempotent (Example.session.recordAll [Example.f, Example.g])).2.1
      (by decide),
    (getCAstEntityInfo_idempotent (Example.session.recordAll [Example.f, Example.g])).2.2
      (by decide) _ (Or.inr trivial)⟩

/-! ## The map of variable types -/

theorem assocPut_of_not_mem {β : Type} {es : List (jobject × β)} {k : Nat}
    (h : k ∉ es.map Prod.fst) (v : β) : assocPut es k v = es ++ [(k, v)] := by
  induction es with
  | nil => rfl
  | cons x rest ih =>
    obtain ⟨k1, v1⟩ := x
    simp only [List.map_cons, List.mem_cons, not_or] at h
    unfold assocPut
    rw [if_neg (fun heq => h.1 heq.symm), ih h.2]
    rfl

theorem foldl_assocPut_nodup (m : std_map) (acc : List (jobject × List Nat))
    (h : (acc.map Prod.fst ++ m.map Prod.fst).Nodup) :
    m.foldl (fun acc kv => assocPut acc kv.1 (jstring kv.2)) acc =
      acc ++ m.map (fun kv => (kv.1, jstring kv.2)) := by
  induction m generalizing acc with
  | nil => simp
  | cons kv rest ih =>
    have hk : kv.1 ∉ acc.map Prod.fst := by
      intro hmem
      have := List.disjoint_of_nodup_append h hmem
      exact this (by simp)
    rw [List.foldl_cons, assocPut_of_not_mem hk, ih]
    · simp
    · simpa [List.nodup_append, List.nodup_cons, List.disjoint_left, and_assoc, and_comm,
        and_left_comm, not_or] using h

theorem std_map.ordered_nodup {m : std_map} (h : m.ordered) : (m.map Prod.fst).Nodup :=
  List.Pairwise.imp (fun hab => Nat.ne_of_lt hab) h

theorem foldl_assocPut_ordered {m : std_map} (h : m.ordered) :
    m.foldl (fun acc kv => assocPut acc kv.1 (jstring kv.2)) [] =
      m.map (fun kv => (kv.1, jstring kv.2)) := by
  rw [foldl_assocPut_nodup m [] (by simpa using std_map.ordered_nodup h)]
  rfl

theorem map_jstring_values {m : std_map} (h : ∀ kv ∈ m, plain kv.2) :
    m.map (fun kv => (kv.1, jstring kv.2)) = m.map (fun kv => (kv.1, utf16 kv.2)) := by
  induction m with
  | nil => rfl
  | cons kv rest ih =>
    rw [List.map_cons, List.map_cons, jstring_of_plain (h kv (List.mem_cons_self _ _)),
      ih (fun t ht => h t (List.mem_cons_of_mem _ ht))]

theorem assocGet_map_values {β γ : Type} (f : β → γ) (m : List (jobject × β)) (k : Nat) :
    assocGet (m.map (fun kv => (kv.1, f kv.2))) k = (assocGet m k).map f := by
  induction m with
  | nil => rfl
  | cons kv rest ih =>
    obtain ⟨k1, v1⟩ := kv
    rw [List.map_cons]
    unfold assocGet
    by_cases h : k1 = k
    · simp [h]
    · simp only [h, if_false]
      exact ih

theorem mapToLinkedHashMap_readMap {env : JNIEnv} (hq : env.quiet) {m : std_map}
    (h : m.ordered) :
    ((mapToLinkedHashMap m).run env).2.readMap ((mapToLinkedHashMap m).run env).1 =
      some (m.map (fun kv => (kv.1, jstring kv.2))) := by
  obtain ⟨h1, _, h3⟩ := mapToLinkedHashMap_quiet hq m
  unfold JNIEnv.readMap
  rw [h1, readMap_sub (JNIEnv.above_sub_deref _ _) h3, foldl_assocPut_ordered h]

theorem assocGet_eq_find (m : std_map) (k : Nat) : assocGet m k = std_map.find m k := by
  induction m with
  | nil => rfl
  | cons kv rest ih =>
    obtain ⟨k1, v1⟩ := kv
    unfold assocGet std_map.find
    rw [ih]

theorem std_map.find_assign (m : std_map) (k : Nat) (v : std_string) (k1 : Nat) :
    std_map.find (std_map.assign m k v) k1 = if k = k1 then some v else std_map.find m k1 := by
  induction m with
  | nil => simp [std_map.assign, std_map.find]
  | cons kv rest ih =>
    obtain ⟨k2, v2⟩ := kv
    unfold std_map.assign
    by_cases h1 : k < k2
    · simp only [h1, if_true]
      rw [std_map.find]
    · by_cases h2 : k = k2
      · subst h2
        simp only [h1, if_false, if_true]
        by_cases h3 : k = k1
        · simp [std_map.find, h3]
        · simp [std_map.find, h3]
      · simp only [h1, h2, if_false]
        by_cases h3 : k2 = k1
        · have h4 : ¬ k = k1 := fun h => h2 (h.trans h3.symm)
          simp [std_map.find, h3, h4]
        · simp [std_map.find, h3, ih]

theorem lastWritten_cons (kv : jobject × std_string) (rest : List (jobject × std_string))
    (k : Nat) :
    lastWritten (kv :: rest) k =
      match lastWritten rest k with
      | some v => some v
      | none => if kv.1 = k then some kv.2 else none := rfl

theorem std_map.find_foldl_assign (ws : List (jobject × std_string)) (m : std_map) (k : Nat) :
    std_map.find (ws.foldl (fun m kv => std_map.assign m kv.1 kv.2) m) k =
      match lastWritten ws k with
      | some v => some v
      | none => std_map.find m k := by
  induction ws generalizing m with
  | nil => rfl
  | cons kv rest ih =>
    rw [List.foldl_cons, ih, lastWritten_cons]
    cases lastWritten rest k with
    | some v => rfl
    | none =>
      dsimp only
      rw [std_map.find_assign]
      by_cases h : kv.1 = k
      · simp [h]
      · simp [h]

theorem std_map.find_build (ws : List (jobject × std_string)) (k : Nat) :
    std_map.find (std_map.build ws) k = lastWritten ws k := by
  unfold std_map.build
  rw [std_map.find_foldl_assign]
  cases lastWritten ws k <;> rfl

theorem std_map.mem_keys_assign (m : std_map) (k : Nat) (v : std_string) (k1 : Nat) :
    k1 ∈ (std_map.assign m k v).map Prod.fst ↔ k1 = k ∨ k1 ∈ m.map Prod.fst := by
  induction m with
  | nil => simp [std_map.assign]
  | cons kv rest ih =>
    obtain ⟨k2, v2⟩ := kv
    unfold std_map.assign
    by_cases h1 : k < k2
    · simp [h1]
    · by_cases h2 : k = k2
      · subst h2
        simp [h1]
      · simp only [h1, h2, if_false, List.map_cons, List.mem_cons, ih]
        tauto

theorem std_map.ordered_cons (kv : jobject × std_string) (rest : std_map) :
    std_map.ordered (kv :: rest) ↔
      (∀ k1 ∈ rest.map Prod.fst, kv.1 < k1) ∧ std_map.ordered rest := by
  unfold std_map.ordered
  rw [List.map_cons, List.pairwise_cons]

theorem std_map.assign_ordered {m : std_map} (h : m.ordered) (k : Nat) (v : std_string) :
    (std_map.assign m k v).ordered := by
  induction m with
  | nil => simp [std_map.assign, std_map.ordered]
  | cons kv rest ih =>
    obtain ⟨k2, v2⟩ := kv
    obtain ⟨hlt, hrest⟩ := (std_map.ordered_cons _ _).1 h
    unfold std_map.assign
    by_cases h1 : k < k2
    · simp only [h1, if_true]
      refine (std_map.ordered_cons _ _).2 ⟨fun k1 hk1 => ?_, h⟩
      simp only [List.map_cons, List.mem_cons] at hk1
      rcases hk1 with rfl | hk1
      · exact h1
      · exact Nat.lt_trans h1 (hlt k1 hk1)
    · by_cases h2 : k = k2
      · subst h2
        simp only [h1, if_false, if_true]
        exact (std_map.ordered_cons _ _).2 ⟨hlt, hrest⟩
      · simp only [h1, h2, if_false]
        refine (std_map.ordered_cons _ _).2 ⟨fun k1 hk1 => ?_, ih hrest⟩
        rcases (std_map.mem_keys_assign rest k v k1).1 hk1 with rfl | hk1
        · exact Nat.lt_of_le_of_ne (Nat.le_of_not_lt h1) (fun h => h2 h.symm)
        · exact hlt k1 hk1

theorem std_map.foldl_assign_ordered (ws : List (jobject × std_string)) {m : std_map}
    (h : m.ordered) : (ws.foldl (fun m kv => std_map.assign m kv.1 kv.2) m).ordered := by
  induction ws generalizing m with
  | nil => exact h
  | cons kv rest ih => exact ih (std_map.assign_ordered h kv.1 kv.2)

theorem std_map.build_ordered (ws : List (jobject × std_string)) : (std_map.build ws).ordered :=
  std_map.foldl_assign_ordered ws (by simp [std_map.ordered])

theorem std_map.mem_keys_foldl_assign (ws : List (jobject × std_string)) (m : std_map)
    (k : Nat) :
    k ∈ (ws.foldl (fun m kv => std_map.assign m kv.1 kv.2) m).map Prod.fst ↔
      k ∈ m.map Prod.fst ∨ k ∈ ws.map Prod.fst := by
  induction ws generalizing m with
  | nil => simp
  | cons kv rest ih =>
    rw [List.foldl_cons, ih, std_map.mem_keys_assign, List.map_cons, List.mem_cons]
    tauto

theorem std_map.mem_keys_build (ws : List (jobject × std_string)) (k : Nat) :
    k ∈ (std_map.build ws).map Prod.fst ↔ k ∈ ws.map Prod.fst := by
  unfold std_map.build
  rw [std_map.mem_keys_foldl_assign]
  simp

theorem mem_foldl_firstInsertion (ws : List (jobject × std_string)) (acc : List jobject)
    (k : Nat) :
    k ∈ ws.foldl (fun acc kv => if kv.1 ∈ acc then acc else acc ++ [kv.1]) acc ↔
      k ∈ acc ∨ k ∈ ws.map Prod.fst := by
  induction ws generalizing acc with
  | nil => simp
  | cons kv rest ih =>
    rw [List.foldl_cons, ih, List.map_cons, List.mem_cons]
    by_cases h : kv.1 ∈ acc
    · simp only [h, if_true]
      constructor
      · rintro (h1 | h1)
        · exact Or.inl h1
        · exact Or.inr (Or.inr h1)
      · rintro (h1 | rfl | h1)
        · exact Or.inl h1
        · exact Or.inl h
        · exact Or.inr h1
    · simp only [h, if_false, List.mem_append, List.mem_singleton]
      tauto

theorem nodup_foldl_firstInsertion (ws : List (jobject × std_string)) {acc : List jobject}
    (h : acc.Nodup) :
    (ws.foldl (fun acc kv => if kv.1 ∈ acc then acc else acc ++ [kv.1]) acc).Nodup := by
  induction ws generalizing acc with
  | nil => exact h
  | cons kv rest ih =>
    rw [List.foldl_cons]
    apply ih
    by_cases hk : kv.1 ∈ acc
    · simpa [hk] using h
    · simp only [hk, if_false]
      exact List.Nodup.append h (List.nodup_singleton _) (by simpa using hk)

theorem mem_firstInsertionOrder (ws : List (jobject × std_string)) (k : Nat) :
    k ∈ firstInsertionOrder ws ↔ k ∈ ws.map Prod.fst := by
  unfold firstInsertionOrder
  rw [mem_foldl_firstInsertion]
  simp

theorem nodup_firstInsertionOrder (ws : List (jobject × std_string)) :
    (firstInsertionOrder ws).Nodup :=
  nodup_foldl_firstInsertion ws List.nodup_nil

theorem eq_of_ascending {xs ys : List Nat} (hx : List.Pairwise (fun a b => a < b) xs)
    (hy : List.Pairwise (fun a b => a < b) ys) (h : ∀ k, k ∈ xs ↔ k ∈ ys) : xs = ys := by
  have hp : xs.Perm ys :=
    (List.perm_ext_iff_of_nodup (hx.imp (fun hab => Nat.ne_of_lt hab))
      (hy.imp (fun hab => Nat.ne_of_lt hab))).2 h
  exact List.eq_of_perm_of_sorted hp hx hy

theorem map_fst_map_jstring (m : std_map) :
    (m.map (fun kv => (kv.1, jstring kv.2))).map Prod.fst = m.map Prod.fst := by
  induction m with
  | nil => rfl
  | cons kv rest ih => simp

/-- C3, as amended: when the JNI layer works, for every sequence of writes
`m[k] = v` that builds an entity's `variableTypes`, the map
`mapToLinkedHashMap` builds iterates its keys in strictly ascending order of
the node references, which is the iteration order of the `std::map`; its keys
are the keys written; and this order is the order of first insertion exactly
when the keys were inserted first in ascending order. -/
theorem mapToLinkedHashMap_key_order (env : JNIEnv) (writes : List (jobject × std_string))
    (hq : env.quiet) :
    ∃ es, ((mapToLinkedHashMap (std_map.build writes)).run env).2.readMap
        ((mapToLinkedHashMap (std_map.build writes)).run env).1 = some es ∧
      es.map Prod.fst = (std_map.build writes).map Prod.fst ∧
      List.Pairwise (fun a b => a < b) (es.map Prod.fst) ∧
      (∀ k, k ∈ es.map Prod.fst ↔ k ∈ writes.map Prod.fst) ∧
      (es.map Prod.fst = firstInsertionOrder writes ↔
        List.Pairwise (fun a b => a < b) (firstInsertionOrder writes)) := by
  have hord := std_map.build_ordered writes
  have hkeys := map_fst_map_jstring (std_map.build writes)
  refine ⟨_, mapToLinkedHashMap_readMap hq hord, hkeys, ?_, fun k => ?_, ?_⟩
  · rw [hkeys]
    exact hord
  · rw [hkeys]
    exact std_map.mem_keys_build writes k
  · rw [hkeys]
    constructor
    · intro h
      rw [← h]
      exact hord
    · intro h
      exact eq_of_ascending hord h (fun k => by
        rw [std_map.mem_keys_build, mem_firstInsertionOrder])

/-- Witness of C3 as amended: the writes to nodes 2, 1 and 2 again. -/
theorem mapToLinkedHashMap_key_order_witness :
    Example.env.quiet ∧
    ∃ es, ((mapToLinkedHashMap (std_map.build Example.writes)).run Example.env).2.readMap
        ((mapToLinkedHashMap (std_map.build Example.writes)).run Example.env).1 = some es ∧
      es.map Prod.fst = (std_map.build Example.writes).map Prod.fst ∧
      List.Pairwise (fun a b => a < b) (es.map Prod.fst) ∧
      (∀ k, k ∈ es.map Prod.fst ↔ k ∈ Example.writes.map Prod.fst) ∧
      (es.map Prod.fst = firstInsertionOrder Example.writes ↔
        List.Pairwise (fun a b => a < b) (firstInsertionOrder Example.writes)) :=
  ⟨by decide, mapToLinkedHashMap_key_order Example.env Example.writes (by decide)⟩

/-- Counterexample to C3 as stated: node 2 is inserted first, then node 1, then
node 2 is overwritten; the map iterates node 1 before node 2, while the order
of first insertion is node 2 before node 1. -/
theorem mapToLinkedHashMap_key_order_counterexample :
    ((mapToLinkedHashMap (std_map.build Example.writes)).run Example.env).2.readMap
        ((mapToLinkedHashMap (std_map.build Example.writes)).run Example.env).1 =
      some [(1, utf16 ['S', 't', 'r', 'i', 'n', 'g']), (2, utf16 ['I', 'n', 't'])] ∧
    firstInsertionOrder Example.writes = [2, 1] := by
  decide

/-! ## A call that throws without a check after it -/

/-- C10, the code at the failing input: the session holds one entity and the
call of `add` that puts its record into the result list throws.  No
`THROW_ANY_EXCEPTION` follows that call, so `getCAstEntityInfo` reaches its
`return` and hands back the list, which holds no record, while the Java
exception is pending. -/
theorem getCAstEntityInfo_add_throws :
    Example.addThrows.castEntities.length = 1 ∧
    Example.addThrows.getCAstEntityInfo.1 = some 1 ∧
    Example.addThrows.getCAstEntityInfo.2.JavaEnv.readEntities 1 = some [] ∧
    Example.addThrows.getCAstEntityInfo.2.JavaEnv.pending = true := by
  decide

end Swan
